import Mathlib

/-!
Verification development for the tetris-python repository.

The definitions below are a shallow embedding of the playfield simulation
core (src/playfield.py, src/tetromino.py, src/block.py,
src/game_interface_model.py, src/level_panel.py).  Python lists are
modelled as Lean lists; Python indexing (which allows negative indices
within one length's magnitude and raises IndexError otherwise) is
modelled by pyIdx/pyGet/pySet; code that can raise runs in the
Except PyErr monad.  Object identity of Block instances (used by the
"block not in self.square_units" membership tests) is modelled by a
numeric identity field bid.  Display colours and pygame surfaces are
omitted: they never influence the simulation state.
-/

/-- Errors raised by the embedded Python code: IndexError from list
indexing and ValueError from the explicit raise statements. -/
inductive PyErr where
  | indexError : PyErr
  | valueError : PyErr
deriving DecidableEq, Repr

/-- Python list-index resolution: an index i is valid when
-len <= i < len; negative indices count from the end. -/
def pyIdx (len : Nat) (i : Int) : Option Nat :=
  if 0 ≤ i ∧ i < (len : Int) then some i.toNat
  else if -(len : Int) ≤ i ∧ i < 0 then some (i + (len : Int)).toNat
  else none

/-- Python list read l[i]: negative indices wrap once, anything else
raises IndexError. -/
def pyGet {α : Type} (l : List α) (i : Int) : Except PyErr α :=
  match pyIdx l.length i with
  | some j =>
    match l.get? j with
    | some a => .ok a
    | none => .error .indexError
  | none => .error .indexError

/-- Python list write l[i] = a, with the same index resolution as pyGet. -/
def pySet {α : Type} (l : List α) (i : Int) (a : α) : Except PyErr (List α) :=
  match pyIdx l.length i with
  | some j => .ok (l.set j a)
  | none => .error .indexError

theorem pyIdx_lt_len {len : Nat} {i : Int} {j : Nat} (h : pyIdx len i = some j) :
    j < len := by
  unfold pyIdx at h
  split at h
  · rename_i h1
    cases h
    omega
  · split at h
    · rename_i h1 h2
      cases h
      omega
    · cases h

theorem pyIdx_nonneg {len : Nat} {i : Int} (h0 : 0 ≤ i) (h1 : i < (len : Int)) :
    pyIdx len i = some i.toNat := by
  unfold pyIdx
  rw [if_pos ⟨h0, h1⟩]

theorem pyGet_eq_get {α : Type} {l : List α} {i : Int} {j : Nat}
    (h : pyIdx l.length i = some j) :
    ∃ hj : j < l.length, pyGet l i = .ok (l.get ⟨j, hj⟩) := by
  have hj := pyIdx_lt_len h
  refine ⟨hj, ?_⟩
  unfold pyGet
  rw [h]
  dsimp only
  rw [List.get?_eq_get hj]

theorem pyGet_nonneg_eq {α : Type} {l : List α} {i : Int}
    (h0 : 0 ≤ i) (h1 : i < (l.length : Int)) :
    ∃ hj : i.toNat < l.length, pyGet l i = .ok (l.get ⟨i.toNat, hj⟩) :=
  pyGet_eq_get (pyIdx_nonneg h0 h1)

theorem pyGet_err {α : Type} {l : List α} {i : Int}
    (h : pyIdx l.length i = none) : pyGet l i = .error .indexError := by
  unfold pyGet
  rw [h]

theorem pyIdx_none_of_oob {len : Nat} {i : Int}
    (h : i < -(len : Int) ∨ (len : Int) ≤ i) : pyIdx len i = none := by
  unfold pyIdx
  rcases h with h | h
  · rw [if_neg, if_neg] <;> omega
  · rw [if_neg, if_neg] <;> omega

theorem pySet_length {α : Type} {l l' : List α} {i : Int} {a : α}
    (h : pySet l i a = .ok l') : l'.length = l.length := by
  unfold pySet at h
  cases hj : pyIdx l.length i with
  | none => rw [hj] at h; cases h
  | some j =>
    rw [hj] at h
    cases h
    exact List.length_set l j a

theorem pySet_nonneg {α : Type} {l : List α} {i : Int} {a : α}
    (h0 : 0 ≤ i) (h1 : i < (l.length : Int)) :
    pySet l i a = .ok (l.set i.toNat a) := by
  unfold pySet
  rw [pyIdx_nonneg h0 h1]

/-- A single square unit of a tetromino (block.py, class Block).  The
field bid models Python object identity: every Block instance allocated
by the program gets a distinct bid, so equality of the embedded values
coincides with the identity comparisons the source performs.  The
display colour is omitted (it never affects the simulation). -/
structure Block where
  bid : Nat
  x_coord : Int
  y_coord : Int
deriving DecidableEq, Repr

/-- Calls made by the playfield on the GameInterfaceModel collaborator
during the line clear phase (game_interface_model.py). -/
inductive ModelEvent where
  | increaseLines : Nat → ModelEvent
  | recalcGravity : ModelEvent
deriving DecidableEq, Repr

/-- One playfield cell: empty (None) or holding a Block. -/
abbrev Cell := Option Block

/-- The playfield state (playfield.py, class Playfield).  Only the
fields that take part in the simulation are kept: display attributes
(surfaces, colours, rects) are omitted.  The clear_rows field models
the full_rows argument captured by the clear generator object stored in
self.clear_generator; events records the calls made to the model
collaborator. -/
structure Playfield where
  grid_width : Nat
  grid_height : Nat
  hidden_rows : Nat
  matrix : List (List Cell)
  tetromino_isactive : Bool
  in_lock_phase : Bool
  in_clear_phase : Bool
  game_over : Bool
  lock_counter : Nat
  soft_drop_isactive : Bool
  clear_rows : Option (List Int)
  events : List ModelEvent
deriving DecidableEq, Repr

/-- A tetromino piece (tetromino.py, class Tetromino).  block_positions
holds the per-orientation relative offsets; is_O_piece marks the ShapeO
subclass, whose rotate method is overridden to do nothing.  The grid
reference the Python object holds is passed explicitly to each
operation instead. -/
structure Tetromino where
  x_coord : Int
  y_coord : Int
  square_units : List Block
  block_positions : List (List (Int × Int))
  rotation_index : Int
  is_O_piece : Bool
deriving DecidableEq, Repr

/-- The pair mutated together by the piece operations: the playfield
grid and the active tetromino that references it. -/
structure GameState where
  piece : Tetromino
  playfield : Playfield
deriving DecidableEq, Repr

/-- Playfield.check_cell_empty: reads self.matrix[y][x] and tests it
against None.  Python indexing may raise IndexError. -/
def Playfield.check_cell_empty (pf : Playfield) (x y : Int) : Except PyErr Bool := do
  let row ← pyGet pf.matrix y
  let block ← pyGet row x
  pure block.isNone

/-- Playfield.get_block: reads self.matrix[y][x], raising ValueError when
no block is found there. -/
def Playfield.get_block (pf : Playfield) (x y : Int) : Except PyErr Block := do
  let row ← pyGet pf.matrix y
  let block ← pyGet row x
  match block with
  | none => .error .valueError
  | some b => pure b

/-- Playfield.is_in_bounds: x must lie in 0..grid_width-1 and y in
0..grid_height-1. -/
def Playfield.is_in_bounds (pf : Playfield) (x y : Int) : Bool :=
  if x < 0 ∨ x > (pf.grid_width : Int) - 1 then false
  else if y < 0 ∨ y > (pf.grid_height : Int) - 1 then false
  else true

/-- The assignment self.matrix[y][x] = c, with Python index semantics on
both levels. -/
def Playfield.set_cell (pf : Playfield) (x y : Int) (c : Cell) : Except PyErr Playfield := do
  let row ← pyGet pf.matrix y
  let row' ← pySet row x c
  let m' ← pySet pf.matrix y row'
  pure { pf with matrix := m' }

/-- Playfield.add_block: raises ValueError when the target cell is
occupied, otherwise writes the block at its own coordinates. -/
def Playfield.add_block (pf : Playfield) (b : Block) : Except PyErr Playfield := do
  let em ← pf.check_cell_empty b.x_coord b.y_coord
  if ¬ em then .error .valueError
  else pf.set_cell b.x_coord b.y_coord (some b)

/-- Playfield.check_block_position: whether the grid holds exactly this
block at the block's own recorded coordinates (identity comparison). -/
def Playfield.check_block_position (pf : Playfield) (b : Block) : Except PyErr Bool := do
  let row ← pyGet pf.matrix b.y_coord
  let cell ← pyGet row b.x_coord
  pure (cell = some b)

/-- Playfield.remove_block: raises ValueError when the block is not at
its recorded position, otherwise empties that cell. -/
def Playfield.remove_block (pf : Playfield) (b : Block) : Except PyErr Playfield := do
  let ok ← pf.check_block_position b
  if ¬ ok then .error .valueError
  else pf.set_cell b.x_coord b.y_coord none

/-- Playfield.check_row_empty: every cell of the row is None.  All call
sites in the source pass a row index in range, so the row is read
totally here (a missing row reads as an empty list). -/
def Playfield.check_row_empty (pf : Playfield) (row : Nat) : Bool :=
  (pf.matrix.getD row []).all (fun c => c.isNone)

/-- Playfield.check_row_full: every cell of self.matrix[row] holds a
block.  The row index comes from block coordinates, so Python index
semantics (possible IndexError) are kept. -/
def Playfield.check_row_full (pf : Playfield) (row : Int) : Except PyErr Bool := do
  let block_row ← pyGet pf.matrix row
  pure (block_row.all (fun c => ¬ c.isNone))

/-- Playfield.check_grid_empty: all rows 0..grid_height-1 are empty. -/
def Playfield.check_grid_empty (pf : Playfield) : Bool :=
  (List.range pf.grid_height).all (fun r => pf.check_row_empty r)

/-- Playfield.get_top_block_row: first non-empty row found while
scanning rows 0..grid_height-2 (note: the source's range stops one row
short of the bottom row), or -1 when none is found. -/
def Playfield.get_top_block_row (pf : Playfield) : Int :=
  match (List.range (pf.grid_height - 1)).find? (fun r => ¬ pf.check_row_empty r) with
  | some r => (r : Int)
  | none => -1

/-- Playfield.clear_row: self.matrix[row_index] = [None] * grid_width. -/
def Playfield.clear_row (pf : Playfield) (row : Int) : Except PyErr Playfield := do
  let m' ← pySet pf.matrix row (List.replicate pf.grid_width none)
  pure { pf with matrix := m' }

/-- Well-formedness of the grid data structure as built by the
Playfield constructor: grid_height rows of grid_width cells. -/
def Playfield.WFmatrix (pf : Playfield) : Prop :=
  pf.matrix.length = pf.grid_height ∧ ∀ row ∈ pf.matrix, row.length = pf.grid_width

instance (pf : Playfield) : Decidable pf.WFmatrix := by
  unfold Playfield.WFmatrix
  infer_instance

/-- Tetromino.get_rows: the distinct row indexes of the piece's blocks,
in insertion order, then sorted ascending (list.sort is stable; on a
duplicate-free list any stable sort gives the same result). -/
def Tetromino.get_rows (t : Tetromino) : List Int :=
  (t.square_units.foldl
    (fun rows b => if b.y_coord ∈ rows then rows else rows ++ [b.y_coord]) []).insertionSort
    (fun a b => a ≤ b)

/-- Tetromino.setup_blocks: reads the offsets of the current orientation
and overwrites the square_units entries with freshly created blocks at
origin plus offset.  base supplies the object identities of the new
Block instances (all fresh in the running program).  The source writes
square_units[i] for each offset index i; List.set models that (both
lists have length 4 in every state the program builds). -/
def Tetromino.setup_blocks (t : Tetromino) (pos_x pos_y : Int) (base : Nat) :
    Except PyErr Tetromino := do
  let block_vectors ← pyGet t.block_positions t.rotation_index
  let units := block_vectors.enum.foldl
    (fun us iv =>
      us.set iv.1 { bid := base + iv.1, x_coord := pos_x + iv.2.1, y_coord := pos_y + iv.2.2 })
    t.square_units
  .ok { t with x_coord := pos_x, y_coord := pos_y, square_units := units }

/-- Loop body of Tetromino.would_collide: scan the square units,
returning True at the first cell that is out of bounds or occupied by a
block that is not one of the piece's own square units. -/
def wcAux (pf : Playfield) (units : List Block) (dx dy : Int) :
    List Block → Except PyErr Bool
  | [] => .ok false
  | b :: rest =>
    let x := b.x_coord + dx
    let y := b.y_coord + dy
    if ¬ pf.is_in_bounds x y then .ok true
    else do
      let em ← pf.check_cell_empty x y
      if ¬ em then do
        let block_found ← pf.get_block x y
        if block_found ∈ units then wcAux pf units dx dy rest
        else .ok true
      else wcAux pf units dx dy rest

/-- Tetromino.would_collide(dx, dy). -/
def Tetromino.would_collide (st : GameState) (dx dy : Int) : Except PyErr Bool :=
  wcAux st.playfield st.piece.square_units dx dy st.piece.square_units

/-- Tetromino.is_on_ground: would_collide(0, 1). -/
def Tetromino.is_on_ground (st : GameState) : Except PyErr Bool :=
  Tetromino.would_collide st 0 1

/-- The circular rotation-index adjustment shared by Tetromino.rotate
and Tetromino.can_rotate: an index that reaches n recycles to 0 and an
index that reaches -1 recycles to n - 1. -/
def wrapIndex (n i : Int) : Int :=
  if i = n then 0 else if i = -1 then n - 1 else i

/-- Loop body of Tetromino.can_rotate: scan the candidate offsets,
returning False at the first target cell that is out of bounds or
occupied by a foreign block. -/
def crGo (pf : Playfield) (units : List Block) (ox oy : Int) :
    List (Int × Int) → Except PyErr Bool
  | [] => .ok true
  | v :: rest =>
    let x := ox + v.1
    let y := oy + v.2
    if ¬ pf.is_in_bounds x y then .ok false
    else do
      let em ← pf.check_cell_empty x y
      if ¬ em then do
        let block_found ← pf.get_block x y
        if block_found ∈ units then crGo pf units ox oy rest
        else .ok false
      else crGo pf units ox oy rest

/-- Tetromino.can_rotate(dr): test the offsets of the candidate
orientation (current index plus dr, wrapped) against the grid. -/
def Tetromino.can_rotate (st : GameState) (dr : Int) : Except PyErr Bool := do
  let n : Int := st.piece.block_positions.length
  let temp_index := wrapIndex n (st.piece.rotation_index + dr)
  let block_vectors ← pyGet st.piece.block_positions temp_index
  crGo st.playfield st.piece.square_units st.piece.x_coord st.piece.y_coord block_vectors

/-- Tetromino.remove_blocks: remove every square unit from the grid in
list order. -/
def removeUnits : Playfield → List Block → Except PyErr Playfield
  | pf, [] => .ok pf
  | pf, b :: rest => do removeUnits (← pf.remove_block b) rest

/-- Tetromino.add_to_grid: add every square unit to the grid in list
order. -/
def addUnits : Playfield → List Block → Except PyErr Playfield
  | pf, [] => .ok pf
  | pf, b :: rest => do addUnits (← pf.add_block b) rest

/-- The re-adding loop of Tetromino.rotate: walk the square units and
the new orientation's offsets in lockstep, move each block to origin
plus offset and add it to the grid; exhausting the offsets first is the
IndexError the source's block_vectors[i] lookup would raise. -/
def rotateAddLoop (ox oy : Int) :
    List (Int × Int) → List Block → Playfield → Except PyErr (Playfield × List Block)
  | _, [], pf => .ok (pf, [])
  | [], _ :: _, _ => .error .indexError
  | v :: vrest, b :: rest, pf => do
    let b' : Block := { b with x_coord := ox + v.1, y_coord := oy + v.2 }
    let pf' ← pf.add_block b'
    let r ← rotateAddLoop ox oy vrest rest pf'
    .ok (r.1, b' :: r.2)

/-- Tetromino.rotate(dr), together with the ShapeO override that makes
rotation of the O piece do nothing.  A rejected rotation returns the
state unchanged; an accepted one advances the wrapped rotation index,
removes the blocks and re-adds them at the new offsets. -/
def Tetromino.rotate (st : GameState) (dr : Int) : Except PyErr GameState :=
  if st.piece.is_O_piece then .ok st
  else do
    let can ← Tetromino.can_rotate st dr
    if ¬ can then .ok st
    else
      let n : Int := st.piece.block_positions.length
      let idx := wrapIndex n (st.piece.rotation_index + dr)
      let block_vectors ← pyGet st.piece.block_positions idx
      let pf ← removeUnits st.playfield st.piece.square_units
      let r ← rotateAddLoop st.piece.x_coord st.piece.y_coord block_vectors
        st.piece.square_units pf
      .ok ⟨{ st.piece with rotation_index := idx, square_units := r.2 }, r.1⟩

/-- Tetromino.rotate_clockwise: rotate(1). -/
def Tetromino.rotate_clockwise (st : GameState) : Except PyErr GameState :=
  Tetromino.rotate st 1

/-- Tetromino.rotate_anticlockwise: rotate(-1). -/
def Tetromino.rotate_anticlockwise (st : GameState) : Except PyErr GameState :=
  Tetromino.rotate st (-1)

/-- Tetromino.shift_left: when would_collide(-1, 0) is false, decrement
the origin, remove the blocks, shift each one left and re-add them;
otherwise do nothing. -/
def Tetromino.shift_left (st : GameState) : Except PyErr GameState := do
  let c ← Tetromino.would_collide st (-1) 0
  if ¬ c then
    let t := { st.piece with x_coord := st.piece.x_coord - 1 }
    let pf ← removeUnits st.playfield st.piece.square_units
    let units' := st.piece.square_units.map (fun b => { b with x_coord := b.x_coord - 1 })
    let pf' ← addUnits pf units'
    .ok ⟨{ t with square_units := units' }, pf'⟩
  else .ok st

/-- Tetromino.shift_right: mirror image of shift_left. -/
def Tetromino.shift_right (st : GameState) : Except PyErr GameState := do
  let c ← Tetromino.would_collide st 1 0
  if ¬ c then
    let t := { st.piece with x_coord := st.piece.x_coord + 1 }
    let pf ← removeUnits st.playfield st.piece.square_units
    let units' := st.piece.square_units.map (fun b => { b with x_coord := b.x_coord + 1 })
    let pf' ← addUnits pf units'
    .ok ⟨{ t with square_units := units' }, pf'⟩
  else .ok st

/-- Playfield.check_lock_out: True when every row the piece locked at
lies within the hidden rows (no row index exceeds hidden_rows - 1). -/
def Playfield.check_lock_out (pf : Playfield) (piece : Tetromino) : Bool :=
  piece.get_rows.all (fun row => decide (row ≤ (pf.hidden_rows : Int) - 1))

/-- The row-collecting loop of Playfield.pattern_phase: append each
row index whose row is full to the accumulated full_rows list. -/
def collectFullRows (pf : Playfield) : List Int → List Int → Except PyErr (List Int)
  | [], acc => .ok acc
  | r :: rest, acc => do
    let full ← pf.check_row_full r
    if full then collectFullRows pf rest (acc ++ [r])
    else collectFullRows pf rest acc

/-- Playfield.pattern_phase: collect the rows the locked piece touched
that are now completely full; when any exist, enter the clear phase and
record them for the clear generator. -/
def Playfield.pattern_phase (pf : Playfield) (piece : Tetromino) : Except PyErr Playfield := do
  let full_rows ← collectFullRows pf piece.get_rows []
  if full_rows.length > 0 then
    .ok { pf with in_clear_phase := true, clear_rows := some full_rows }
  else .ok pf

/-- The first three assignments of Playfield.lock_tetromino: reset the
lock counter, deactivate the piece and end the lock phase. -/
def lockReset (pf : Playfield) : Playfield :=
  { pf with lock_counter := 0, tetromino_isactive := false, in_lock_phase := false }

/-- Playfield.lock_tetromino: reset the lock counter, deactivate the
piece and end the lock phase; then either flag game over on lock-out or
run the pattern phase. -/
def Playfield.lock_tetromino (st : GameState) : Except PyErr Playfield :=
  if (lockReset st.playfield).check_lock_out st.piece then
    .ok { lockReset st.playfield with game_over := true }
  else (lockReset st.playfield).pattern_phase st.piece

/-- The forced grid writes in the game-over branch of
Playfield.set_tetromino: self.matrix[y][x] = block for every block,
with no occupancy check. -/
def forceWriteUnits : Playfield → List Block → Except PyErr Playfield
  | pf, [] => .ok pf
  | pf, b :: rest => do
    forceWriteUnits (← pf.set_cell b.x_coord b.y_coord (some b)) rest

/-- Playfield.set_tetromino: mark a piece active, set its blocks up at
the spawn origin (3, 2); on collision retry one row higher at (3, 1);
if that also collides, flag game over, deactivate the piece and force
its blocks into the grid; otherwise add the piece normally.  base gives
the identities of the freshly allocated Block objects. -/
def Playfield.set_tetromino (pf : Playfield) (next_piece : Tetromino) (base : Nat) :
    Except PyErr GameState := do
  let pf := { pf with tetromino_isactive := true }
  let t ← next_piece.setup_blocks 3 2 base
  let c ← Tetromino.would_collide ⟨t, pf⟩ 0 0
  if c then
    let t ← next_piece.setup_blocks 3 1 base
    let c2 ← Tetromino.would_collide ⟨t, pf⟩ 0 0
    if c2 then
      let pf := { pf with game_over := true, tetromino_isactive := false }
      let pf ← forceWriteUnits pf t.square_units
      .ok ⟨t, pf⟩
    else
      let pf ← addUnits pf t.square_units
      .ok ⟨t, pf⟩
  else
    let pf ← addUnits pf t.square_units
    .ok ⟨t, pf⟩

/-- One column of the clear animation of line_clear_generator: empty
the cell of every full row at column x. -/
def sweepColumn (x : Int) : List Int → Playfield → Except PyErr Playfield
  | [], pf => .ok pf
  | row :: rest, pf => do sweepColumn x rest (← pf.set_cell x row none)

/-- The full clear animation of line_clear_generator: sweep the columns
left to right, emptying every full row's cell in each. -/
def sweepColumns (full_rows : List Int) : List Nat → Playfield → Except PyErr Playfield
  | [], pf => .ok pf
  | x :: xs, pf => do sweepColumns full_rows xs (← sweepColumn (x : Int) full_rows pf)

/-- The cell-clearing loop of Playfield.line_clear_generator over all
grid columns. -/
def Playfield.line_clear_sweep (pf : Playfield) (full_rows : List Int) :
    Except PyErr Playfield :=
  sweepColumns full_rows (List.range pf.grid_width) pf

/-- Python's range(a, b) over integers. -/
def pyRange (a b : Int) : List Int :=
  if a < b then (List.range (b - a).toNat).map (fun (k : Nat) => a + (k : Int)) else []

/-- Inner loop of Playfield.shift_rows_down: walk y from start_row to
end_row - 1, replacing row y + 1 with the carried row and carrying the
replaced row onward. -/
def shiftLoop : List Int → Playfield → List Cell → Except PyErr Playfield
  | [], pf, _ => .ok pf
  | y :: ys, pf, temp_blocks => do
    let blocks ← pyGet pf.matrix (y + 1)
    let m' ← pySet pf.matrix (y + 1) temp_blocks
    shiftLoop ys { pf with matrix := m' } blocks

/-- One iteration of the outer loop of Playfield.shift_rows_down: take
the top block row, empty it, and shift the rows between it and the
cleared row down by one. -/
def Playfield.shiftOne (pf : Playfield) (end_row : Int) : Except PyErr Playfield := do
  let start_row := pf.get_top_block_row
  let temp_blocks ← pyGet pf.matrix start_row
  let pf1 ← pf.clear_row start_row
  shiftLoop (pyRange start_row end_row) pf1 temp_blocks

/-- Playfield.shift_rows_down: nothing to do on an empty grid;
otherwise run one shift iteration per cleared row. -/
def Playfield.shift_rows_down (pf : Playfield) (full_rows : List Int) :
    Except PyErr Playfield :=
  if pf.check_grid_empty then .ok pf
  else full_rows.foldlM Playfield.shiftOne pf

/-- The cumulative effect of running Playfield.line_clear_generator to
completion: the delay counters and yields only pace the animation, so
the state change is the column sweep, the row shift, leaving the clear
phase, reporting the cleared lines to the model and (outside soft drop)
asking the model to recalculate gravity. -/
def Playfield.line_clear_run (pf : Playfield) (full_rows : List Int) :
    Except PyErr Playfield := do
  let num_of_lines := full_rows.length
  let pf ← pf.line_clear_sweep full_rows
  let pf ← pf.shift_rows_down full_rows
  let pf := { pf with in_clear_phase := false }
  let pf := { pf with events := pf.events ++ [ModelEvent.increaseLines num_of_lines] }
  let pf := if ¬ pf.soft_drop_isactive then
      { pf with events := pf.events ++ [ModelEvent.recalcGravity] }
    else pf
  .ok pf

/-- The seven tetromino shape identities (the classes returned by
Tetromino.get_tetromino_set, in source order). -/
inductive TetShape where
  | I | J | L | O | S | T | Z
deriving DecidableEq, Repr, Inhabited

/-- Tetromino.get_tetromino_set as a list of shape identities. -/
def tetromino_set : List TetShape := [.I, .J, .L, .O, .S, .T, .Z]

/-- Tetromino.random_generator: each cycle shuffles a fresh copy of the
shape set and yields its elements in order.  The outcomes of
random.shuffle are abstracted as the function shuffles, giving the k-th
bag; output i comes from bag i / 7 at offset i mod 7. -/
def bagStream (shuffles : Nat → List TetShape) (i : Nat) : TetShape :=
  (shuffles (i / 7)).getD (i % 7) TetShape.I

/-- A window of 7 consecutive outputs of the bag randomizer starting at
position start. -/
def bagWindow (shuffles : Nat → List TetShape) (start : Nat) : List TetShape :=
  (List.range 7).map (fun j => bagStream shuffles (start + j))

/-- GameInterfaceModel.calculate_gravity, in exact rational arithmetic:
ceil(((0.8 - (level - 1) * 0.007) ** (level - 1)) * FRAME_RATE) with
FRAME_RATE = 60.  The source computes with Python floats; the exact
model coincides with it at every level discussed in the theorems
below. -/
def calculate_gravity (level : Nat) : Int :=
  Int.ceil ((((8 : ℚ) / 10 - ((level : ℚ) - 1) * (7 / 1000)) ^ (level - 1)) * 60)

theorem gravity_val_1 : calculate_gravity 1 = 60 := by
  unfold calculate_gravity
  rw [Int.ceil_eq_iff]
  norm_num

theorem gravity_val_2 : calculate_gravity 2 = 48 := by
  unfold calculate_gravity
  rw [Int.ceil_eq_iff]
  norm_num

theorem gravity_val_3 : calculate_gravity 3 = 38 := by
  unfold calculate_gravity
  rw [Int.ceil_eq_iff]
  norm_num

theorem gravity_val_4 : calculate_gravity 4 = 29 := by
  unfold calculate_gravity
  rw [Int.ceil_eq_iff]
  norm_num

theorem gravity_val_5 : calculate_gravity 5 = 22 := by
  unfold calculate_gravity
  rw [Int.ceil_eq_iff]
  norm_num

theorem gravity_val_6 : calculate_gravity 6 = 16 := by
  unfold calculate_gravity
  rw [Int.ceil_eq_iff]
  norm_num

theorem gravity_val_7 : calculate_gravity 7 = 12 := by
  unfold calculate_gravity
  rw [Int.ceil_eq_iff]
  norm_num

theorem gravity_val_8 : calculate_gravity 8 = 9 := by
  unfold calculate_gravity
  rw [Int.ceil_eq_iff]
  norm_num

theorem gravity_val_9 : calculate_gravity 9 = 6 := by
  unfold calculate_gravity
  rw [Int.ceil_eq_iff]
  norm_num

theorem gravity_val_10 : calculate_gravity 10 = 4 := by
  unfold calculate_gravity
  rw [Int.ceil_eq_iff]
  norm_num

theorem gravity_val_11 : calculate_gravity 11 = 3 := by
  unfold calculate_gravity
  rw [Int.ceil_eq_iff]
  norm_num

theorem gravity_val_12 : calculate_gravity 12 = 2 := by
  unfold calculate_gravity
  rw [Int.ceil_eq_iff]
  norm_num

theorem gravity_val_13 : calculate_gravity 13 = 2 := by
  unfold calculate_gravity
  rw [Int.ceil_eq_iff]
  norm_num

theorem gravity_val_mid (L : Nat) (h14 : 14 ≤ L) (h115 : L ≤ 115) :
    calculate_gravity L = 1 := by
  unfold calculate_gravity
  rw [Int.ceil_eq_iff]
  have hL14 : (14 : ℚ) ≤ (L : ℚ) := by exact_mod_cast h14
  have hL115 : (L : ℚ) ≤ 115 := by exact_mod_cast h115
  have hbase : (0 : ℚ) < 8 / 10 - ((L : ℚ) - 1) * (7 / 1000) := by nlinarith
  have hble : (8 : ℚ) / 10 - ((L : ℚ) - 1) * (7 / 1000) ≤ 709 / 1000 := by nlinarith
  constructor
  · have hp := pow_pos hbase (L - 1)
    push_cast
    nlinarith
  · have h1 : ((8 : ℚ) / 10 - ((L : ℚ) - 1) * (7 / 1000)) ^ (L - 1) ≤ (709 / 1000) ^ (L - 1) :=
      pow_le_pow_left₀ (le_of_lt hbase) hble (L - 1)
    have h2 : ((709 : ℚ) / 1000) ^ (L - 1) ≤ (709 / 1000) ^ 13 :=
      pow_le_pow_of_le_one (by norm_num) (by norm_num) (by omega)
    have h3 : ((709 : ℚ) / 1000) ^ 13 * 60 ≤ 1 := by norm_num
    push_cast
    nlinarith

theorem gravity_val_116 : calculate_gravity 116 = 0 := by
  have hb : ((8 : ℚ) / 10 - (((116 : ℕ) : ℚ) - 1) * (7 / 1000)) = -(1 / 200) := by norm_num
  unfold calculate_gravity
  rw [show (116 - 1 : ℕ) = 115 by norm_num, hb, Int.ceil_eq_iff]
  have hodd : Odd 115 := by decide
  have hneg : (-(1 / 200) : ℚ) ^ 115 ≤ 0 := Odd.pow_nonpos hodd (by norm_num)
  have habs : |(-(1 / 200) : ℚ) ^ 115| ≤ 1 / 200 := by
    rw [abs_pow]
    have habs0 : |(-(1 / 200) : ℚ)| = 1 / 200 := by norm_num
    rw [habs0]
    have h200 : ((1 : ℚ) / 200) ^ 115 ≤ (1 / 200) ^ 1 :=
      pow_le_pow_of_le_one (by norm_num) (by norm_num) (by norm_num)
    simpa using h200
  have hge := (abs_le.mp habs).1
  constructor
  · push_cast
    nlinarith
  · push_cast
    nlinarith

theorem gravity_val_117 : calculate_gravity 117 = 1 := by
  have hb : ((8 : ℚ) / 10 - (((117 : ℕ) : ℚ) - 1) * (7 / 1000)) = -(3 / 250) := by norm_num
  unfold calculate_gravity
  rw [show (117 - 1 : ℕ) = 116 by norm_num, hb, Int.ceil_eq_iff]
  rw [Even.neg_pow (by decide : Even 116)]
  have hp : (0 : ℚ) < ((3 : ℚ) / 250) ^ 116 := by positivity
  have hle : ((3 : ℚ) / 250) ^ 116 ≤ (3 / 250) ^ 1 :=
    pow_le_pow_of_le_one (by norm_num) (by norm_num) (by norm_num)
  constructor
  · push_cast
    nlinarith
  · push_cast
    nlinarith

/-- C8 counterexample: the gravity sequence does not strictly decrease
to a floor it never goes below.  It plateaus at 2 for levels 12 and 13
before decreasing further to 1 at level 14, and after holding 1 up to
level 115 it drops to 0 at level 116 and returns to 1 at level 117, so
no value acts as a floor the interval never goes below. -/
theorem c8_gravity_floor_counterexample :
    calculate_gravity 12 = 2 ∧ calculate_gravity 13 = 2 ∧ calculate_gravity 14 = 1 ∧
      calculate_gravity 116 = 0 ∧ calculate_gravity 117 = 1 :=
  ⟨gravity_val_12, gravity_val_13, gravity_val_mid 14 (by norm_num) (by norm_num),
    gravity_val_116, gravity_val_117⟩

/-- C8 (amended): with exact arithmetic in place of Python floats, the
gravity interval ceil(((0.8 - (L-1)*0.007)^(L-1))*60) equals 60 at
level 1, strictly decreases from each level to the next up to level 12,
stays at 2 for levels 12 and 13, equals 1 for all levels 14 to 115, and
is not bounded below by a floor beyond that: it is 0 at level 116 and 1
again at level 117. -/
theorem c8_gravity_profile :
    calculate_gravity 1 = 60 ∧
      (∀ L : Nat, 1 ≤ L → L ≤ 11 → calculate_gravity (L + 1) < calculate_gravity L) ∧
      calculate_gravity 12 = 2 ∧ calculate_gravity 13 = 2 ∧
      (∀ L : Nat, 14 ≤ L → L ≤ 115 → calculate_gravity L = 1) ∧
      calculate_gravity 116 = 0 ∧ calculate_gravity 117 = 1 := by
  refine ⟨gravity_val_1, ?_, gravity_val_12, gravity_val_13, gravity_val_mid,
    gravity_val_116, gravity_val_117⟩
  intro L h1 h11
  interval_cases L
  · rw [gravity_val_2, gravity_val_1]; decide
  · rw [gravity_val_3, gravity_val_2]; decide
  · rw [gravity_val_4, gravity_val_3]; decide
  · rw [gravity_val_5, gravity_val_4]; decide
  · rw [gravity_val_6, gravity_val_5]; decide
  · rw [gravity_val_7, gravity_val_6]; decide
  · rw [gravity_val_8, gravity_val_7]; decide
  · rw [gravity_val_9, gravity_val_8]; decide
  · rw [gravity_val_10, gravity_val_9]; decide
  · rw [gravity_val_11, gravity_val_10]; decide
  · rw [gravity_val_12, gravity_val_11]; decide

/-- Witness for c8_gravity_profile: its bounded quantifications applied
at concrete levels. -/
theorem c8_gravity_profile_witness :
    calculate_gravity 4 < calculate_gravity 3 ∧ calculate_gravity 20 = 1 :=
  ⟨c8_gravity_profile.2.1 3 (by norm_num) (by norm_num),
    c8_gravity_profile.2.2.2.2.1 20 (by norm_num) (by norm_num)⟩

theorem map_getD_range {α : Type} (d : α) :
    ∀ l : List α, (List.range l.length).map (fun j => l.getD j d) = l := by
  intro l
  induction l with
  | nil => rfl
  | cons a t ih =>
    rw [List.length_cons, List.range_succ_eq_map, List.map_cons, List.map_map]
    simp only [Function.comp_def, List.getD_cons_zero, List.getD_cons_succ]
    rw [ih]

/-- A choice of shuffle outcomes in which the first bag comes out in
source order and every later bag comes out reversed; both are genuine
shuffles of the full shape set. -/
def cexShuffles (k : Nat) : List TetShape :=
  if k = 0 then tetromino_set else tetromino_set.reverse

/-- C7 counterexample: both bags of cexShuffles are permutations of the
shape set, yet the window of 7 consecutive outputs starting at position
1 (straddling the first bag boundary) contains the Z shape twice, so it
does not contain each variant exactly once. -/
theorem c7_window_counterexample :
    (cexShuffles 0).Perm tetromino_set ∧ (cexShuffles 1).Perm tetromino_set ∧
      (bagWindow cexShuffles 1).count TetShape.Z = 2 ∧
      (bagWindow cexShuffles 1).count TetShape.I = 0 := by
  refine ⟨by decide, by decide, by decide, by decide⟩

/-- C7 (amended): for every choice of shuffles and every bag index k,
the window of 7 outputs aligned to the bag boundary (positions 7k to
7k+6) contains each of the 7 shape variants exactly once.  Windows that
straddle a bag boundary need not. -/
theorem c7_bag_window_aligned (shuffles : Nat → List TetShape)
    (hperm : ∀ k, (shuffles k).Perm tetromino_set) (k : Nat) (s : TetShape) :
    (bagWindow shuffles (7 * k)).count s = 1 := by
  have hlen : (shuffles k).length = 7 := by
    rw [(hperm k).length_eq]
    rfl
  have hwin : bagWindow shuffles (7 * k) = shuffles k := by
    unfold bagWindow bagStream
    have hcong : ∀ j ∈ List.range 7,
        (shuffles ((7 * k + j) / 7)).getD ((7 * k + j) % 7) TetShape.I =
          (shuffles k).getD j TetShape.I := by
      intro j hj
      have hj7 := List.mem_range.mp hj
      have h1 : (7 * k + j) / 7 = k := by omega
      have h2 : (7 * k + j) % 7 = j := by omega
      rw [h1, h2]
    rw [List.map_congr_left hcong, ← hlen]
    exact map_getD_range _ _
  rw [hwin, (hperm k).count_eq s]
  cases s <;> rfl

/-- Witness for c7_bag_window_aligned: the aligned window of the third
bag of cexShuffles holds each shape exactly once. -/
theorem c7_bag_window_aligned_witness :
    (bagWindow cexShuffles (7 * 2)).count TetShape.S = 1 := by
  refine c7_bag_window_aligned cexShuffles ?_ 2 TetShape.S
  intro k
  unfold cexShuffles
  split
  · exact List.Perm.refl _
  · exact List.reverse_perm _

deriving instance DecidableEq for Except

theorem except_bind_ok {α β : Type} (a : α) (f : α → Except PyErr β) :
    (Except.ok a >>= f) = f a := rfl

theorem except_bind_err {α β : Type} (e : PyErr) (f : α → Except PyErr β) :
    ((Except.error e : Except PyErr α) >>= f) = Except.error e := rfl

theorem pyIdx_eq_none_iff {len : Nat} {i : Int} :
    pyIdx len i = none ↔ i < -(len : Int) ∨ (len : Int) ≤ i := by
  unfold pyIdx
  constructor
  · intro h
    split at h
    · cases h
    · split at h
      · cases h
      · omega
  · intro h
    rw [if_neg, if_neg] <;> omega

/-- Grid-construction helper for the concrete states used in the
theorems below: an all-empty matrix of the given dimensions. -/
def emptyMatrix (w h : Nat) : List (List Cell) :=
  List.replicate h (List.replicate w none)

/-- Grid-construction helper: place one block at its own coordinates
(assumed in range). -/
def putBlock (m : List (List Cell)) (b : Block) : List (List Cell) :=
  match m.get? b.y_coord.toNat with
  | some row => m.set b.y_coord.toNat (row.set b.x_coord.toNat (some b))
  | none => m

/-- Grid-construction helper: a 10 by 22 playfield as the Playfield
constructor builds it, holding the given locked blocks, with the phase
flags in the configuration passed in. -/
def mkPlayfield (bs : List Block) : Playfield :=
  { grid_width := 10
    grid_height := 22
    hidden_rows := 2
    matrix := bs.foldl putBlock (emptyMatrix 10 22)
    tetromino_isactive := true
    in_lock_phase := true
    in_clear_phase := false
    game_over := false
    lock_counter := 0
    soft_drop_isactive := false
    clear_rows := none
    events := [] }

/-- C10: on a 10 by 22 grid whose only block sits in the bottom row
(row 21), the grid is not empty, that bottom row is not empty, and yet
get_top_block_row returns -1 — the source's scan stops at row
grid_height - 2, contradicting its own docstring, which promises the
smallest non-empty row index and -1 only for a completely empty
grid. -/
theorem c10_top_block_row_bug :
    (mkPlayfield [{ bid := 1, x_coord := 0, y_coord := 21 }]).check_grid_empty = false ∧
      (mkPlayfield [{ bid := 1, x_coord := 0, y_coord := 21 }]).check_row_empty 21 = false ∧
      (mkPlayfield [{ bid := 1, x_coord := 0, y_coord := 21 }]).get_top_block_row = -1 := by
  refine ⟨by decide, by decide, by decide⟩

/-- C9 counterexample: reading the cell (0, -1) of a 10 by 22 grid whose
bottom-row cell (0, 21) holds a block is out of bounds by the spec, yet
check_cell_empty silently answers about the aliased cell (0, 21)
(Python negative indexing) and get_block silently returns that block —
no fatal failure is signalled. -/
theorem c9_negative_read_counterexample :
    (mkPlayfield [{ bid := 1, x_coord := 0, y_coord := 21 }]).check_cell_empty 0 (-1) =
        .ok false ∧
      (mkPlayfield [{ bid := 1, x_coord := 0, y_coord := 21 }]).get_block 0 (-1) =
        .ok { bid := 1, x_coord := 0, y_coord := 21 } := by
  refine ⟨by decide, by decide⟩

/-- C9 (amended): a cell read at a coordinate beyond Python's index
range — y below -grid_height or at least grid_height, or x below
-grid_width or at least grid_width — raises IndexError from both
check_cell_empty and get_block; negative coordinates within one
dimension's magnitude instead silently alias a cell counted from the
end. -/
theorem c9_far_out_of_bounds_reads_fail (pf : Playfield) (hwf : pf.WFmatrix) (x y : Int)
    (h : y < -(pf.grid_height : Int) ∨ (pf.grid_height : Int) ≤ y ∨
      x < -(pf.grid_width : Int) ∨ (pf.grid_width : Int) ≤ x) :
    pf.check_cell_empty x y = .error .indexError ∧
      pf.get_block x y = .error .indexError := by
  obtain ⟨hlen, hrows⟩ := hwf
  by_cases hy : pyIdx pf.matrix.length y = none
  · have herr := pyGet_err (l := pf.matrix) hy
    constructor
    · unfold Playfield.check_cell_empty
      rw [herr, except_bind_err]
    · unfold Playfield.get_block
      rw [herr, except_bind_err]
  · obtain ⟨j, hj⟩ := Option.ne_none_iff_exists'.mp hy
    have hyin : ¬ (y < -(pf.matrix.length : Int) ∨ (pf.matrix.length : Int) ≤ y) := by
      intro hc
      exact hy (pyIdx_eq_none_iff.mpr hc)
    rw [hlen] at hyin
    have hx : x < -(pf.grid_width : Int) ∨ (pf.grid_width : Int) ≤ x := by
      rcases h with h | h | h | h
      · exact absurd (Or.inl (by omega)) hyin
      · exact absurd (Or.inr (by omega)) hyin
      · exact Or.inl h
      · exact Or.inr h
    obtain ⟨hjlt, hrow⟩ := pyGet_eq_get hj
    have hwrow : (pf.matrix.get ⟨j, hjlt⟩).length = pf.grid_width :=
      hrows _ (pf.matrix.get_mem _ _)
    have hxerr : pyGet (pf.matrix.get ⟨j, hjlt⟩) x = .error .indexError := by
      apply pyGet_err
      apply pyIdx_eq_none_iff.mpr
      rw [hwrow]
      exact hx
    constructor
    · unfold Playfield.check_cell_empty
      rw [hrow, except_bind_ok, hxerr, except_bind_err]
    · unfold Playfield.get_block
      rw [hrow, except_bind_ok, hxerr, except_bind_err]

/-- Witness for c9_far_out_of_bounds_reads_fail: reading column 10 of
row 0 on an empty well-formed grid raises IndexError. -/
theorem c9_far_out_of_bounds_reads_fail_witness :
    (mkPlayfield []).check_cell_empty 10 0 = .error .indexError ∧
      (mkPlayfield []).get_block 10 0 = .error .indexError :=
  c9_far_out_of_bounds_reads_fail (mkPlayfield []) (by decide) 10 0 (by decide)

theorem mem_dedup_fold (l : List Block) (acc : List Int) (y : Int) :
    (y ∈ l.foldl
        (fun rows b => if b.y_coord ∈ rows then rows else rows ++ [b.y_coord]) acc) ↔
      y ∈ acc ∨ ∃ b ∈ l, b.y_coord = y := by
  induction l generalizing acc with
  | nil => simp
  | cons a t ih =>
    rw [List.foldl_cons, ih]
    by_cases hmem : a.y_coord ∈ acc
    · rw [if_pos hmem]
      constructor
      · rintro (h | h)
        · exact Or.inl h
        · exact Or.inr ⟨h.choose, List.mem_cons_of_mem a h.choose_spec.1, h.choose_spec.2⟩
      · rintro (h | ⟨b, hb, hby⟩)
        · exact Or.inl h
        · rcases List.mem_cons.mp hb with rfl | hb
          · exact Or.inl (hby ▸ hmem)
          · exact Or.inr ⟨b, hb, hby⟩
    · rw [if_neg hmem]
      constructor
      · rintro (h | h)
        · rcases List.mem_append.mp h with h | h
          · exact Or.inl h
          · refine Or.inr ⟨a, List.mem_cons_self a t, ?_⟩
            have := List.mem_singleton.mp h
            omega
        · exact Or.inr ⟨h.choose, List.mem_cons_of_mem a h.choose_spec.1, h.choose_spec.2⟩
      · rintro (h | ⟨b, hb, hby⟩)
        · exact Or.inl (List.mem_append.mpr (Or.inl h))
        · rcases List.mem_cons.mp hb with rfl | hb
          · exact Or.inl (List.mem_append.mpr (Or.inr (List.mem_singleton.mpr hby.symm)))
          · exact Or.inr ⟨b, hb, hby⟩

theorem mem_get_rows (t : Tetromino) (y : Int) :
    y ∈ t.get_rows ↔ ∃ b ∈ t.square_units, b.y_coord = y := by
  unfold Tetromino.get_rows
  rw [List.Perm.mem_iff (List.perm_insertionSort _ _), mem_dedup_fold]
  simp

theorem check_lock_out_iff (pf : Playfield) (t : Tetromino) :
    pf.check_lock_out t = true ↔
      ∀ b ∈ t.square_units, b.y_coord ≤ (pf.hidden_rows : Int) - 1 := by
  unfold Playfield.check_lock_out
  rw [List.all_eq_true]
  constructor
  · intro h b hb
    have := h b.y_coord ((mem_get_rows t b.y_coord).mpr ⟨b, hb, rfl⟩)
    exact of_decide_eq_true this
  · intro h y hy
    obtain ⟨b, hb, rfl⟩ := (mem_get_rows t y).mp hy
    exact decide_eq_true (h b hb)

theorem collectFullRows_pure (pf : Playfield) (q : Int → Bool) :
    ∀ (l acc : List Int), (∀ r ∈ l, pf.check_row_full r = .ok (q r)) →
      collectFullRows pf l acc = .ok (acc ++ l.filter q) := by
  intro l
  induction l with
  | nil => intro acc _; simp [collectFullRows]
  | cons r rest ih =>
    intro acc h
    unfold collectFullRows
    rw [h r (List.mem_cons_self r rest), except_bind_ok]
    by_cases hq : q r
    · rw [if_pos hq, ih _ (fun s hs => h s (List.mem_cons_of_mem r hs)),
        List.filter_cons_of_pos hq]
      simp
    · rw [if_neg hq, ih _ (fun s hs => h s (List.mem_cons_of_mem r hs)),
        List.filter_cons_of_neg (by simpa using hq)]

theorem pattern_phase_of_rows (pf : Playfield) (t : Tetromino) (q : Int → Bool)
    (h : ∀ r ∈ t.get_rows, pf.check_row_full r = .ok (q r)) :
    pf.pattern_phase t =
      .ok (if (t.get_rows.filter q).length > 0 then
          { pf with in_clear_phase := true, clear_rows := some (t.get_rows.filter q) }
        else pf) := by
  unfold Playfield.pattern_phase
  rw [collectFullRows_pure pf q t.get_rows [] h, except_bind_ok]
  by_cases hlen : (t.get_rows.filter q).length > 0
  · rw [if_pos (by simpa using hlen), if_pos hlen]
    simp
  · rw [if_neg (by simpa using hlen), if_neg hlen]

theorem pattern_phase_game_over (pf : Playfield) (t : Tetromino) (pf' : Playfield)
    (h : pf.pattern_phase t = .ok pf') : pf'.game_over = pf.game_over := by
  unfold Playfield.pattern_phase at h
  cases hfil : collectFullRows pf t.get_rows [] with
  | error e => rw [hfil, except_bind_err] at h; cases h
  | ok frs =>
    rw [hfil, except_bind_ok] at h
    by_cases hlen : frs.length > 0
    · rw [if_pos hlen] at h
      cases h
      rfl
    · rw [if_neg hlen] at h
      cases h
      rfl

theorem check_row_full_ok (pf : Playfield) (r : Int) (h0 : 0 ≤ r)
    (h1 : r < (pf.matrix.length : Int)) : ∃ b, pf.check_row_full r = .ok b := by
  obtain ⟨hj, hget⟩ := pyGet_nonneg_eq h0 h1
  refine ⟨(pf.matrix.get ⟨r.toNat, hj⟩).all (fun c => ¬ c.isNone), ?_⟩
  unfold Playfield.check_row_full
  rw [hget, except_bind_ok]
  rfl

theorem check_lock_out_lockReset (pf : Playfield) (t : Tetromino) :
    (lockReset pf).check_lock_out t = pf.check_lock_out t := rfl

/-- C5: locking a piece whose blocks all lie in the hidden rows (every
block row index below hidden_rows) resets the lock state, deactivates
the piece and sets the game-over flag without entering the
pattern/clear phase (grid, clear-phase flag and pending clear rows are
exactly those of the pre-lock state); while if at least one block lies
at or below row hidden_rows, lock-out does not trigger: check_lock_out
is false and locking runs the pattern phase, leaving the game-over
flag unchanged. -/
theorem c5_hidden_row_lock_out (st : GameState) (hwf : st.playfield.WFmatrix)
    (hys : ∀ b ∈ st.piece.square_units,
      0 ≤ b.y_coord ∧ b.y_coord < (st.playfield.grid_height : Int)) :
    ((∀ b ∈ st.piece.square_units, b.y_coord < (st.playfield.hidden_rows : Int)) →
      Playfield.lock_tetromino st = .ok { lockReset st.playfield with game_over := true }) ∧
    ((∃ b ∈ st.piece.square_units, (st.playfield.hidden_rows : Int) ≤ b.y_coord) →
      st.playfield.check_lock_out st.piece = false ∧
        ∃ pf', Playfield.lock_tetromino st = .ok pf' ∧
          pf'.game_over = st.playfield.game_over ∧
          pf'.tetromino_isactive = false ∧ pf'.in_lock_phase = false ∧
          pf'.matrix = st.playfield.matrix) := by
  constructor
  · intro hall
    have htrue : (lockReset st.playfield).check_lock_out st.piece = true := by
      rw [check_lock_out_lockReset]
      exact (check_lock_out_iff _ _).mpr (fun b hb => by have := hall b hb; omega)
    unfold Playfield.lock_tetromino
    rw [htrue]
    rfl
  · rintro ⟨b, hb, hvis⟩
    have hfalse : st.playfield.check_lock_out st.piece = false := by
      cases hlo : st.playfield.check_lock_out st.piece
      · rfl
      · have := (check_lock_out_iff _ _).mp hlo b hb
        omega
    refine ⟨hfalse, ?_⟩
    have hfalse' : (lockReset st.playfield).check_lock_out st.piece = false := by
      rw [check_lock_out_lockReset]
      exact hfalse
    have hall : ∀ r ∈ st.piece.get_rows,
        (lockReset st.playfield).check_row_full r =
          .ok (((lockReset st.playfield).check_row_full r).toOption.getD false) := by
      intro r hr
      obtain ⟨b', hb', rfl⟩ := (mem_get_rows st.piece r).mp hr
      obtain ⟨v, hv⟩ := check_row_full_ok (lockReset st.playfield) b'.y_coord (hys b' hb').1
        (by
          have hlen : (lockReset st.playfield).matrix.length = st.playfield.grid_height :=
            hwf.1
          rw [hlen]
          exact (hys b' hb').2)
      rw [hv]
      rfl
    unfold Playfield.lock_tetromino
    rw [hfalse']
    rw [if_neg (by simp)]
    rw [pattern_phase_of_rows (lockReset st.playfield) st.piece _ hall]
    refine ⟨_, rfl, ?_⟩
    split <;> exact ⟨rfl, rfl, rfl, rfl⟩

/-- The four blocks of a concrete O piece sitting in the two hidden
rows. -/
def c5LockOutUnits : List Block :=
  [⟨1, 4, 0⟩, ⟨2, 4, 1⟩, ⟨3, 5, 1⟩, ⟨4, 5, 0⟩]

/-- A concrete O piece locked entirely within the two hidden rows of a
10 by 22 grid, with its blocks on the grid. -/
def c5LockOutState : GameState :=
  ⟨⟨3, 0, c5LockOutUnits, [[(1, 0), (1, 1), (2, 1), (2, 0)]], 0, true⟩,
    mkPlayfield c5LockOutUnits⟩

/-- The four blocks of the same O piece two rows lower, partly in the
visible rows. -/
def c5VisibleUnits : List Block :=
  [⟨1, 4, 2⟩, ⟨2, 4, 3⟩, ⟨3, 5, 3⟩, ⟨4, 5, 2⟩]

/-- The same concrete O piece two rows lower, partly visible. -/
def c5VisibleState : GameState :=
  ⟨⟨3, 2, c5VisibleUnits, [[(1, 0), (1, 1), (2, 1), (2, 0)]], 0, true⟩,
    mkPlayfield c5VisibleUnits⟩

/-- Witness for c5_hidden_row_lock_out: the hidden-row lock flags game
over, the partly visible lock does not. -/
theorem c5_hidden_row_lock_out_witness :
    Playfield.lock_tetromino c5LockOutState =
        .ok { lockReset c5LockOutState.playfield with game_over := true } ∧
      c5VisibleState.playfield.check_lock_out c5VisibleState.piece = false :=
  ⟨(c5_hidden_row_lock_out c5LockOutState (by decide) (by decide)).1 (by decide),
    ((c5_hidden_row_lock_out c5VisibleState (by decide) (by decide)).2
      ⟨⟨2, 4, 3⟩, by decide, by decide⟩).1⟩

/-- The content of an in-bounds cell, as a total function used to state
properties of the collision queries. -/
def cellAt (pf : Playfield) (x y : Int) : Cell :=
  (pf.matrix.getD y.toNat []).getD x.toNat none

theorem is_in_bounds_true_iff (pf : Playfield) (x y : Int) :
    pf.is_in_bounds x y = true ↔
      0 ≤ x ∧ x < (pf.grid_width : Int) ∧ 0 ≤ y ∧ y < (pf.grid_height : Int) := by
  unfold Playfield.is_in_bounds
  split_ifs with h1 h2 <;> simp <;> omega

theorem check_cell_empty_inbounds (pf : Playfield) (x y : Int) (hwf : pf.WFmatrix)
    (hx0 : 0 ≤ x) (hx1 : x < (pf.grid_width : Int))
    (hy0 : 0 ≤ y) (hy1 : y < (pf.grid_height : Int)) :
    pf.check_cell_empty x y = .ok (cellAt pf x y).isNone := by
  obtain ⟨hlen, hrows⟩ := hwf
  have hy1' : y < (pf.matrix.length : Int) := by
    rw [show (pf.matrix.length : Int) = (pf.grid_height : Int) by exact_mod_cast hlen]
    exact hy1
  obtain ⟨hj, hrowget⟩ := pyGet_nonneg_eq hy0 hy1'
  have hrlen : (pf.matrix.get ⟨y.toNat, hj⟩).length = pf.grid_width :=
    hrows _ (pf.matrix.get_mem _ _)
  have hx1' : x < ((pf.matrix.get ⟨y.toNat, hj⟩).length : Int) := by
    rw [show ((pf.matrix.get ⟨y.toNat, hj⟩).length : Int) = (pf.grid_width : Int) by
      exact_mod_cast hrlen]
    exact hx1
  obtain ⟨hi, hcellget⟩ := pyGet_nonneg_eq hx0 hx1'
  have hrow9 : pf.matrix.getD y.toNat [] = pf.matrix.get ⟨y.toNat, hj⟩ := by
    rw [List.getD_eq_getElem?_getD, List.getElem?_eq_getElem hj]
    rfl
  have hcel9 : (pf.matrix.get ⟨y.toNat, hj⟩).getD x.toNat none =
      (pf.matrix.get ⟨y.toNat, hj⟩).get ⟨x.toNat, hi⟩ := by
    rw [List.getD_eq_getElem?_getD, List.getElem?_eq_getElem hi]
    rfl
  have hcell : cellAt pf x y = (pf.matrix.get ⟨y.toNat, hj⟩).get ⟨x.toNat, hi⟩ := by
    unfold cellAt
    rw [hrow9, hcel9]
  unfold Playfield.check_cell_empty
  rw [hrowget, except_bind_ok, hcellget, except_bind_ok, hcell]
  rfl

theorem get_block_inbounds (pf : Playfield) (x y : Int) (bf : Block) (hwf : pf.WFmatrix)
    (hx0 : 0 ≤ x) (hx1 : x < (pf.grid_width : Int))
    (hy0 : 0 ≤ y) (hy1 : y < (pf.grid_height : Int))
    (hcell : cellAt pf x y = some bf) :
    pf.get_block x y = .ok bf := by
  obtain ⟨hlen, hrows⟩ := hwf
  have hy1' : y < (pf.matrix.length : Int) := by
    rw [show (pf.matrix.length : Int) = (pf.grid_height : Int) by exact_mod_cast hlen]
    exact hy1
  obtain ⟨hj, hrowget⟩ := pyGet_nonneg_eq hy0 hy1'
  have hrlen : (pf.matrix.get ⟨y.toNat, hj⟩).length = pf.grid_width :=
    hrows _ (pf.matrix.get_mem _ _)
  have hx1' : x < ((pf.matrix.get ⟨y.toNat, hj⟩).length : Int) := by
    rw [show ((pf.matrix.get ⟨y.toNat, hj⟩).length : Int) = (pf.grid_width : Int) by
      exact_mod_cast hrlen]
    exact hx1
  obtain ⟨hi, hcellget⟩ := pyGet_nonneg_eq hx0 hx1'
  have hrow9 : pf.matrix.getD y.toNat [] = pf.matrix.get ⟨y.toNat, hj⟩ := by
    rw [List.getD_eq_getElem?_getD, List.getElem?_eq_getElem hj]
    rfl
  have hcel9 : (pf.matrix.get ⟨y.toNat, hj⟩).getD x.toNat none =
      (pf.matrix.get ⟨y.toNat, hj⟩).get ⟨x.toNat, hi⟩ := by
    rw [List.getD_eq_getElem?_getD, List.getElem?_eq_getElem hi]
    rfl
  have hcell' : (pf.matrix.get ⟨y.toNat, hj⟩).get ⟨x.toNat, hi⟩ = some bf := by
    rw [← hcell]
    unfold cellAt
    rw [hrow9, hcel9]
  unfold Playfield.get_block
  rw [hrowget, except_bind_ok, hcellget, except_bind_ok, hcell']
  rfl

theorem wcAux_detects (pf : Playfield) (units : List Block) (dx dy : Int)
    (hwf : pf.WFmatrix) :
    ∀ (l : List Block) (b : Block), b ∈ l →
      (¬ pf.is_in_bounds (b.x_coord + dx) (b.y_coord + dy) = true ∨
        ∃ bf, cellAt pf (b.x_coord + dx) (b.y_coord + dy) = some bf ∧ bf ∉ units) →
      wcAux pf units dx dy l = .ok true := by
  intro l
  induction l with
  | nil => intro b hb; cases hb
  | cons a rest ih =>
    intro b hb htrig
    unfold wcAux
    by_cases hain : pf.is_in_bounds (a.x_coord + dx) (a.y_coord + dy) = true
    · rw [if_neg (by simpa using hain)]
      obtain ⟨hx0, hx1, hy0, hy1⟩ := (is_in_bounds_true_iff pf _ _).mp hain
      rw [check_cell_empty_inbounds pf _ _ hwf hx0 hx1 hy0 hy1, except_bind_ok]
      have hb' : b ∈ rest → wcAux pf units dx dy rest = .ok true := fun h => ih b h htrig
      cases hcell : cellAt pf (a.x_coord + dx) (a.y_coord + dy) with
      | none =>
        rw [if_neg (by simp)]
        rcases List.mem_cons.mp hb with rfl | hbr
        · rcases htrig with htrig | ⟨bf, hbf, _⟩
          · exact absurd hain htrig
          · rw [hcell] at hbf
            cases hbf
        · exact hb' hbr
      | some bf =>
        rw [if_pos (by simp)]
        rw [get_block_inbounds pf _ _ bf hwf hx0 hx1 hy0 hy1 hcell, except_bind_ok]
        by_cases hmem : bf ∈ units
        · rw [if_pos hmem]
          rcases List.mem_cons.mp hb with rfl | hbr
          · rcases htrig with htrig | ⟨bf', hbf', hnmem⟩
            · exact absurd hain htrig
            · rw [hcell] at hbf'
              cases hbf'
              exact absurd hmem hnmem
          · exact hb' hbr
        · rw [if_neg hmem]
    · rw [if_pos (by simpa using hain)]

/-- C3: would_collide(dx, dy) answers true (without raising) whenever
some square unit of the piece, offset by (dx, dy), leaves the grid
bounds — x below 0 or at least grid_width, y below 0 or at least
grid_height, the height including the hidden rows — and likewise
whenever the offset cell is occupied by a block that is not one of the
piece's own square units. -/
theorem c3_would_collide_detects (st : GameState) (dx dy : Int) (b : Block)
    (hwf : st.playfield.WFmatrix) (hb : b ∈ st.piece.square_units) :
    ((b.x_coord + dx < 0 ∨ (st.playfield.grid_width : Int) ≤ b.x_coord + dx ∨
        b.y_coord + dy < 0 ∨ (st.playfield.grid_height : Int) ≤ b.y_coord + dy) →
      Tetromino.would_collide st dx dy = .ok true) ∧
    (∀ bf : Block, cellAt st.playfield (b.x_coord + dx) (b.y_coord + dy) = some bf →
      bf ∉ st.piece.square_units → Tetromino.would_collide st dx dy = .ok true) := by
  constructor
  · intro hoob
    apply wcAux_detects st.playfield st.piece.square_units dx dy hwf _ b hb
    left
    intro hin
    obtain ⟨hx0, hx1, hy0, hy1⟩ := (is_in_bounds_true_iff st.playfield _ _).mp hin
    omega
  · intro bf hcell hnmem
    apply wcAux_detects st.playfield st.piece.square_units dx dy hwf _ b hb
    by_cases hin : st.playfield.is_in_bounds (b.x_coord + dx) (b.y_coord + dy) = true
    · exact Or.inr ⟨bf, hcell, hnmem⟩
    · exact Or.inl hin

/-- A single-block piece at column 0 on an otherwise empty grid. -/
def c3StateA : GameState :=
  ⟨⟨0, 5, [⟨1, 0, 5⟩], [[(0, 0)]], 0, false⟩, mkPlayfield [⟨1, 0, 5⟩]⟩

/-- A single-block piece with a foreign block directly to its right. -/
def c3StateB : GameState :=
  ⟨⟨3, 5, [⟨1, 3, 5⟩], [[(0, 0)]], 0, false⟩, mkPlayfield [⟨1, 3, 5⟩, ⟨9, 4, 5⟩]⟩

/-- Witness for c3_would_collide_detects: a shift off the left wall and
a shift onto a foreign block are both reported as collisions. -/
theorem c3_would_collide_detects_witness :
    Tetromino.would_collide c3StateA (-1) 0 = .ok true ∧
      Tetromino.would_collide c3StateB 1 0 = .ok true :=
  ⟨(c3_would_collide_detects c3StateA (-1) 0 ⟨1, 0, 5⟩ (by decide) (by decide)).1 (by decide),
    (c3_would_collide_detects c3StateB 1 0 ⟨1, 3, 5⟩ (by decide) (by decide)).2
      ⟨9, 4, 5⟩ (by decide) (by decide)⟩

theorem crGo_detects (pf : Playfield) (units : List Block) (ox oy : Int)
    (hwf : pf.WFmatrix) :
    ∀ (vs : List (Int × Int)) (v : Int × Int), v ∈ vs →
      (¬ pf.is_in_bounds (ox + v.1) (oy + v.2) = true ∨
        ∃ bf, cellAt pf (ox + v.1) (oy + v.2) = some bf ∧ bf ∉ units) →
      crGo pf units ox oy vs = .ok false := by
  intro vs
  induction vs with
  | nil => intro v hv; cases hv
  | cons a rest ih =>
    intro v hv htrig
    unfold crGo
    by_cases hain : pf.is_in_bounds (ox + a.1) (oy + a.2) = true
    · rw [if_neg (by simpa using hain)]
      obtain ⟨hx0, hx1, hy0, hy1⟩ := (is_in_bounds_true_iff pf _ _).mp hain
      rw [check_cell_empty_inbounds pf _ _ hwf hx0 hx1 hy0 hy1, except_bind_ok]
      have hv' : v ∈ rest → crGo pf units ox oy rest = .ok false := fun h => ih v h htrig
      cases hcell : cellAt pf (ox + a.1) (oy + a.2) with
      | none =>
        rw [if_neg (by simp)]
        rcases List.mem_cons.mp hv with rfl | hvr
        · rcases htrig with htrig | ⟨bf, hbf, _⟩
          · exact absurd hain htrig
          · rw [hcell] at hbf
            cases hbf
        · exact hv' hvr
      | some bf =>
        rw [if_pos (by simp)]
        rw [get_block_inbounds pf _ _ bf hwf hx0 hx1 hy0 hy1 hcell, except_bind_ok]
        by_cases hmem : bf ∈ units
        · rw [if_pos hmem]
          rcases List.mem_cons.mp hv with rfl | hvr
          · rcases htrig with htrig | ⟨bf', hbf', hnmem⟩
            · exact absurd hain htrig
            · rw [hcell] at hbf'
              cases hbf'
              exact absurd hmem hnmem
          · exact hv' hvr
        · rw [if_neg hmem]
    · rw [if_pos (by simpa using hain)]

theorem can_rotate_eq_false (st : GameState) (dr : Int) (vs : List (Int × Int))
    (hwf : st.playfield.WFmatrix)
    (hvs : pyGet st.piece.block_positions
      (wrapIndex (st.piece.block_positions.length : Int)
        (st.piece.rotation_index + dr)) = .ok vs)
    (v : Int × Int) (hv : v ∈ vs)
    (htrig : ¬ st.playfield.is_in_bounds (st.piece.x_coord + v.1)
        (st.piece.y_coord + v.2) = true ∨
      ∃ bf, cellAt st.playfield (st.piece.x_coord + v.1) (st.piece.y_coord + v.2) = some bf ∧
        bf ∉ st.piece.square_units) :
    Tetromino.can_rotate st dr = .ok false := by
  unfold Tetromino.can_rotate
  dsimp only
  rw [hvs, except_bind_ok]
  exact crGo_detects st.playfield st.piece.square_units st.piece.x_coord st.piece.y_coord
    hwf vs v hv htrig

/-- C2: a rotation whose candidate orientation has some cell out of
bounds or on a foreign block is rejected as a silent no-op: rotate
returns the state unchanged (same rotation index, origin, square units
and grid), raising nothing; likewise a shift blocked by collision
returns the state unchanged. -/
theorem c2_blocked_rotate_and_shift_are_noops (st : GameState) (dr : Int)
    (hwf : st.playfield.WFmatrix) :
    ((∃ vs, pyGet st.piece.block_positions
        (wrapIndex (st.piece.block_positions.length : Int)
          (st.piece.rotation_index + dr)) = .ok vs ∧
        ∃ v ∈ vs, ¬ st.playfield.is_in_bounds (st.piece.x_coord + v.1)
            (st.piece.y_coord + v.2) = true ∨
          ∃ bf, cellAt st.playfield (st.piece.x_coord + v.1)
              (st.piece.y_coord + v.2) = some bf ∧ bf ∉ st.piece.square_units) →
      Tetromino.rotate st dr = .ok st) ∧
    (Tetromino.would_collide st (-1) 0 = .ok true → Tetromino.shift_left st = .ok st) := by
  constructor
  · rintro ⟨vs, hvs, v, hv, htrig⟩
    unfold Tetromino.rotate
    by_cases hO : st.piece.is_O_piece
    · rw [if_pos hO]
    · rw [if_neg hO]
      rw [can_rotate_eq_false st dr vs hwf hvs v hv htrig, except_bind_ok]
      rw [if_pos (by simp)]
  · intro hcol
    unfold Tetromino.shift_left
    rw [hcol, except_bind_ok]
    rw [if_neg (by simp)]

/-- A two-orientation piece hugging the left wall: its candidate
rotation state reaches column -1. -/
def c2State : GameState :=
  ⟨⟨0, 5, [⟨1, 0, 5⟩], [[(0, 0)], [(-1, 0)]], 0, false⟩, mkPlayfield [⟨1, 0, 5⟩]⟩

/-- Witness for c2_blocked_rotate_and_shift_are_noops: at the left wall
both the rotation and the left shift are silent no-ops. -/
theorem c2_blocked_rotate_and_shift_are_noops_witness :
    Tetromino.rotate c2State 1 = .ok c2State ∧
      Tetromino.shift_left c2State = .ok c2State :=
  ⟨(c2_blocked_rotate_and_shift_are_noops c2State 1 (by decide)).1
      ⟨[(-1, 0)], by decide, (-1, 0), by decide, Or.inl (by decide)⟩,
    (c2_blocked_rotate_and_shift_are_noops c2State 1 (by decide)).2 (by decide)⟩

/-- The block list produced by the re-adding loop of rotate: each block
keeps its identity and moves to origin plus the matching offset. -/
def applyVectors (ox oy : Int) (vs : List (Int × Int)) (units : List Block) : List Block :=
  (units.zip vs).map
    (fun p => { p.1 with x_coord := ox + p.2.1, y_coord := oy + p.2.2 })

theorem rotateAddLoop_units (ox oy : Int) :
    ∀ (units : List Block) (vs : List (Int × Int)) (pf : Playfield)
      (r : Playfield × List Block),
      rotateAddLoop ox oy vs units pf = .ok r →
      r.2 = applyVectors ox oy vs units ∧ units.length ≤ vs.length := by
  intro units
  induction units with
  | nil =>
    intro vs pf r h
    cases vs with
    | nil =>
      unfold rotateAddLoop at h
      cases h
      exact ⟨rfl, by simp⟩
    | cons v vrest =>
      unfold rotateAddLoop at h
      cases h
      exact ⟨rfl, by simp⟩
  | cons b rest ih =>
    intro vs pf r h
    cases vs with
    | nil =>
      unfold rotateAddLoop at h
      cases h
    | cons v vrest =>
      unfold rotateAddLoop at h
      dsimp only at h
      cases hadd : pf.add_block { b with x_coord := ox + v.1, y_coord := oy + v.2 } with
      | error e =>
        rw [hadd, except_bind_err] at h
        cases h
      | ok pf1 =>
        rw [hadd, except_bind_ok] at h
        cases hrec : rotateAddLoop ox oy vrest rest pf1 with
        | error e =>
          rw [hrec, except_bind_err] at h
          cases h
        | ok r1 =>
          rw [hrec, except_bind_ok] at h
          cases h
          obtain ⟨h1, h2⟩ := ih vrest pf1 r1 hrec
          constructor
          · unfold applyVectors
            rw [List.zip_cons_cons, List.map_cons]
            unfold applyVectors at h1
            rw [h1]
          · simpa using h2

theorem rotate_success_shape (st : GameState) (dr : Int) (st' : GameState)
    (hO : st.piece.is_O_piece = false)
    (hcan : Tetromino.can_rotate st dr = .ok true)
    (hrot : Tetromino.rotate st dr = .ok st') :
    ∃ vs,
      pyGet st.piece.block_positions
        (wrapIndex (st.piece.block_positions.length : Int)
          (st.piece.rotation_index + dr)) = .ok vs ∧
      st.piece.square_units.length ≤ vs.length ∧
      st'.piece = { st.piece with
        rotation_index := wrapIndex (st.piece.block_positions.length : Int)
          (st.piece.rotation_index + dr),
        square_units := applyVectors st.piece.x_coord st.piece.y_coord vs
          st.piece.square_units } := by
  unfold Tetromino.rotate at hrot
  rw [if_neg (by simp [hO])] at hrot
  rw [hcan, except_bind_ok] at hrot
  rw [if_neg (by simp)] at hrot
  dsimp only at hrot
  cases hvs : pyGet st.piece.block_positions
      (wrapIndex (st.piece.block_positions.length : Int)
        (st.piece.rotation_index + dr)) with
  | error e =>
    rw [hvs, except_bind_err] at hrot
    cases hrot
  | ok vs =>
    rw [hvs, except_bind_ok] at hrot
    cases hrm : removeUnits st.playfield st.piece.square_units with
    | error e =>
      rw [hrm, except_bind_err] at hrot
      cases hrot
    | ok pfr =>
      rw [hrm, except_bind_ok] at hrot
      cases hloop : rotateAddLoop st.piece.x_coord st.piece.y_coord vs
          st.piece.square_units pfr with
      | error e =>
        rw [hloop, except_bind_err] at hrot
        cases hrot
      | ok r =>
        rw [hloop, except_bind_ok] at hrot
        obtain ⟨hunits, hlen⟩ := rotateAddLoop_units _ _ _ _ _ _ hloop
        cases hrot
        refine ⟨vs, rfl, hlen, ?_⟩
        rw [← hunits]

theorem wrapIndex_round (n idx : Int) (h0 : 0 ≤ idx) (h1 : idx < n) :
    wrapIndex n (wrapIndex n (idx + 1) + -1) = idx := by
  unfold wrapIndex
  split_ifs <;> omega

theorem applyVectors_twice (ox oy ox2 oy2 : Int) :
    ∀ (us : List Block) (vs1 vs2 : List (Int × Int)), us.length ≤ vs1.length →
      applyVectors ox2 oy2 vs2 (applyVectors ox oy vs1 us) =
        applyVectors ox2 oy2 vs2 us := by
  intro us
  induction us with
  | nil => intro vs1 vs2 h; rfl
  | cons b rest ih =>
    intro vs1 vs2 h
    cases vs1 with
    | nil => simp at h
    | cons v1 r1 =>
      cases vs2 with
      | nil => rfl
      | cons v2 r2 =>
        have htail := ih r1 r2 (by simpa using h)
        unfold applyVectors
        unfold applyVectors at htail
        rw [List.zip_cons_cons, List.map_cons, List.zip_cons_cons, List.map_cons,
          List.zip_cons_cons, List.map_cons]
        rw [htail]

/-- C6: from a consistent piece state (rotation index in range, blocks
placed at origin plus the current orientation's offsets), when neither
rotation is blocked and both rotations run (as the code path does),
applying rotate(+1) and then rotate(-1) restores the original rotation
index and the original square units, positions included. -/
theorem c6_rotate_round_trip (st st1 st2 : GameState)
    (hidx : 0 ≤ st.piece.rotation_index ∧
      st.piece.rotation_index < (st.piece.block_positions.length : Int))
    (hcons : ∃ vs0, pyGet st.piece.block_positions st.piece.rotation_index = .ok vs0 ∧
      st.piece.square_units =
        applyVectors st.piece.x_coord st.piece.y_coord vs0 st.piece.square_units)
    (hcan1 : Tetromino.can_rotate st 1 = .ok true)
    (hrot1 : Tetromino.rotate st 1 = .ok st1)
    (hcan2 : Tetromino.can_rotate st1 (-1) = .ok true)
    (hrot2 : Tetromino.rotate st1 (-1) = .ok st2) :
    st2.piece.rotation_index = st.piece.rotation_index ∧
      st2.piece.square_units = st.piece.square_units := by
  by_cases hO : st.piece.is_O_piece
  · unfold Tetromino.rotate at hrot1
    rw [if_pos hO] at hrot1
    cases hrot1
    unfold Tetromino.rotate at hrot2
    rw [if_pos hO] at hrot2
    cases hrot2
    exact ⟨rfl, rfl⟩
  · have hO' : st.piece.is_O_piece = false := by simpa using hO
    obtain ⟨vs0, hvs0, hfix⟩ := hcons
    obtain ⟨vs1, hvs1, hlen1, hsh1⟩ := rotate_success_shape st 1 st1 hO' hcan1 hrot1
    have hbp1 : st1.piece.block_positions = st.piece.block_positions := by rw [hsh1]
    have hx1 : st1.piece.x_coord = st.piece.x_coord := by rw [hsh1]
    have hy1 : st1.piece.y_coord = st.piece.y_coord := by rw [hsh1]
    have hri1 : st1.piece.rotation_index =
        wrapIndex (st.piece.block_positions.length : Int)
          (st.piece.rotation_index + 1) := by rw [hsh1]
    have hsu1 : st1.piece.square_units =
        applyVectors st.piece.x_coord st.piece.y_coord vs1 st.piece.square_units := by
      rw [hsh1]
    have hO1 : st1.piece.is_O_piece = false := by rw [hsh1]; exact hO'
    obtain ⟨vs2, hvs2, hlen2, hsh2⟩ := rotate_success_shape st1 (-1) st2 hO1 hcan2 hrot2
    have hwrap := wrapIndex_round (st.piece.block_positions.length : Int)
      st.piece.rotation_index hidx.1 hidx.2
    rw [hbp1, hri1, hwrap] at hvs2
    have hvs02 : vs2 = vs0 := (Except.ok.inj (hvs0.symm.trans hvs2)).symm
    have hri2 : st2.piece.rotation_index = st.piece.rotation_index := by
      rw [hsh2]
      show wrapIndex (st1.piece.block_positions.length : Int)
        (st1.piece.rotation_index + -1) = st.piece.rotation_index
      rw [hbp1, hri1]
      exact hwrap
    refine ⟨hri2, ?_⟩
    have hsu2 : st2.piece.square_units =
        applyVectors st1.piece.x_coord st1.piece.y_coord vs2 st1.piece.square_units := by
      rw [hsh2]
    rw [hsu2, hvs02, hx1, hy1, hsu1,
      applyVectors_twice _ _ _ _ st.piece.square_units vs1 vs0 hlen1, ← hfix]

/-- A two-block, two-orientation piece in open space, with its blocks
on the grid at the offsets of orientation 0. -/
def c6State : GameState :=
  ⟨⟨4, 5, [⟨1, 4, 5⟩, ⟨2, 5, 5⟩], [[(0, 0), (1, 0)], [(0, 0), (0, 1)]], 0, false⟩,
    mkPlayfield [⟨1, 4, 5⟩, ⟨2, 5, 5⟩]⟩

/-- The state after rotating c6State clockwise. -/
def c6State1 : GameState :=
  (Tetromino.rotate c6State 1).toOption.getD c6State

/-- The state after rotating c6State1 anticlockwise again. -/
def c6State2 : GameState :=
  (Tetromino.rotate c6State1 (-1)).toOption.getD c6State

/-- Witness for c6_rotate_round_trip: the concrete round trip restores
the rotation index and the square units. -/
theorem c6_rotate_round_trip_witness :
    c6State2.piece.rotation_index = c6State.piece.rotation_index ∧
      c6State2.piece.square_units = c6State.piece.square_units :=
  c6_rotate_round_trip c6State c6State1 c6State2 (by decide)
    ⟨[(0, 0), (1, 0)], by decide, by decide⟩
    (by decide) (by decide) (by decide) (by decide)

theorem getD_eq_get {α : Type} (l : List α) (j : Nat) (d : α) (h : j < l.length) :
    l.getD j d = l.get ⟨j, h⟩ := by
  rw [List.getD_eq_getElem?_getD, List.getElem?_eq_getElem h]
  rfl

theorem getD_set_self {α : Type} (l : List α) (j : Nat) (a d : α) (h : j < l.length) :
    (l.set j a).getD j d = a := by
  simp [List.getD_eq_getElem?_getD, List.getElem?_set_self', h]

theorem getD_set_ne {α : Type} (l : List α) (i j : Nat) (a d : α) (h : i ≠ j) :
    (l.set j a).getD i d = l.getD i d := by
  simp [List.getD_eq_getElem?_getD, List.getElem?_set_ne (Ne.symm h)]

/-- The pure effect of the in-bounds assignment matrix[y][x] = c, used
to state what the grid-mutating operations do. -/
def setCellPure (pf : Playfield) (x y : Int) (c : Cell) : Playfield :=
  { pf with matrix :=
      pf.matrix.set y.toNat ((pf.matrix.getD y.toNat []).set x.toNat c) }

/-- All non-matrix fields of two playfields agree (a proof device for
stating that grid writes touch nothing but the matrix). -/
def sameScalars (pf pf' : Playfield) : Prop :=
  pf'.grid_width = pf.grid_width ∧ pf'.grid_height = pf.grid_height ∧
    pf'.hidden_rows = pf.hidden_rows ∧
    pf'.tetromino_isactive = pf.tetromino_isactive ∧
    pf'.in_lock_phase = pf.in_lock_phase ∧ pf'.in_clear_phase = pf.in_clear_phase ∧
    pf'.game_over = pf.game_over ∧ pf'.lock_counter = pf.lock_counter ∧
    pf'.soft_drop_isactive = pf.soft_drop_isactive ∧ pf'.clear_rows = pf.clear_rows ∧
    pf'.events = pf.events

theorem sameScalars_refl (pf : Playfield) : sameScalars pf pf :=
  ⟨rfl, rfl, rfl, rfl, rfl, rfl, rfl, rfl, rfl, rfl, rfl⟩

theorem sameScalars_trans {pf1 pf2 pf3 : Playfield}
    (h1 : sameScalars pf1 pf2) (h2 : sameScalars pf2 pf3) : sameScalars pf1 pf3 := by
  obtain ⟨a1, a2, a3, a4, a5, a6, a7, a8, a9, a10, a11⟩ := h1
  obtain ⟨b1, b2, b3, b4, b5, b6, b7, b8, b9, b10, b11⟩ := h2
  exact ⟨b1.trans a1, b2.trans a2, b3.trans a3, b4.trans a4, b5.trans a5, b6.trans a6,
    b7.trans a7, b8.trans a8, b9.trans a9, b10.trans a10, b11.trans a11⟩

theorem sameScalars_setCellPure (pf : Playfield) (x y : Int) (c : Cell) :
    sameScalars pf (setCellPure pf x y c) :=
  ⟨rfl, rfl, rfl, rfl, rfl, rfl, rfl, rfl, rfl, rfl, rfl⟩

theorem set_cell_ok (pf : Playfield) (x y : Int) (c : Cell) (hwf : pf.WFmatrix)
    (hx0 : 0 ≤ x) (hx1 : x < (pf.grid_width : Int))
    (hy0 : 0 ≤ y) (hy1 : y < (pf.grid_height : Int)) :
    pf.set_cell x y c = .ok (setCellPure pf x y c) := by
  obtain ⟨hlen, hrows⟩ := hwf
  have hy1' : y < (pf.matrix.length : Int) := by
    rw [show (pf.matrix.length : Int) = (pf.grid_height : Int) by exact_mod_cast hlen]
    exact hy1
  obtain ⟨hj, hrowget⟩ := pyGet_nonneg_eq hy0 hy1'
  have hrlen : (pf.matrix.get ⟨y.toNat, hj⟩).length = pf.grid_width :=
    hrows _ (pf.matrix.get_mem _ _)
  have hx1' : x < ((pf.matrix.get ⟨y.toNat, hj⟩).length : Int) := by
    rw [show ((pf.matrix.get ⟨y.toNat, hj⟩).length : Int) = (pf.grid_width : Int) by
      exact_mod_cast hrlen]
    exact hx1
  unfold Playfield.set_cell
  rw [hrowget, except_bind_ok, pySet_nonneg hx0 hx1', except_bind_ok,
    pySet_nonneg hy0 (by
      rw [show ((pf.matrix.length : Nat) : Int) = (pf.grid_height : Int) by
        exact_mod_cast hlen]
      exact hy1), except_bind_ok]
  unfold setCellPure
  rw [getD_eq_get pf.matrix y.toNat [] hj]
  rfl

theorem WFmatrix_setCellPure (pf : Playfield) (x y : Int) (c : Cell)
    (hwf : pf.WFmatrix) (hy0 : 0 ≤ y) (hy1 : y < (pf.grid_height : Int)) :
    (setCellPure pf x y c).WFmatrix := by
  obtain ⟨hlen, hrows⟩ := hwf
  have hj : y.toNat < pf.matrix.length := by omega
  constructor
  · rw [show (setCellPure pf x y c).matrix =
      pf.matrix.set y.toNat ((pf.matrix.getD y.toNat []).set x.toNat c) from rfl]
    rw [List.length_set]
    exact hlen
  · intro row hrow
    rcases List.mem_or_eq_of_mem_set hrow with hmem | rfl
    · exact hrows row hmem
    · rw [List.length_set]
      rw [getD_eq_get pf.matrix y.toNat [] hj]
      exact hrows _ (pf.matrix.get_mem _ _)

theorem cellAt_setCellPure_self (pf : Playfield) (x y : Int) (c : Cell)
    (hwf : pf.WFmatrix)
    (hx0 : 0 ≤ x) (hx1 : x < (pf.grid_width : Int))
    (hy0 : 0 ≤ y) (hy1 : y < (pf.grid_height : Int)) :
    cellAt (setCellPure pf x y c) x y = c := by
  obtain ⟨hlen, hrows⟩ := hwf
  have hj : y.toNat < pf.matrix.length := by omega
  have hrlen : (pf.matrix.getD y.toNat []).length = pf.grid_width := by
    rw [getD_eq_get pf.matrix y.toNat [] hj]
    exact hrows _ (pf.matrix.get_mem _ _)
  have hi : x.toNat < (pf.matrix.getD y.toNat []).length := by omega
  unfold cellAt setCellPure
  rw [getD_set_self _ _ _ _ hj]
  rw [getD_set_self _ _ _ _ hi]

theorem cellAt_setCellPure_ne (pf : Playfield) (x y x' y' : Int) (c : Cell)
    (hwf : pf.WFmatrix)
    (hx0 : 0 ≤ x) (hy0 : 0 ≤ y) (hy1 : y < (pf.grid_height : Int))
    (hx0' : 0 ≤ x') (hy0' : 0 ≤ y')
    (hne : x' ≠ x ∨ y' ≠ y) :
    cellAt (setCellPure pf x y c) x' y' = cellAt pf x' y' := by
  have hj : y.toNat < pf.matrix.length := by
    have hlen := hwf.1
    omega
  unfold cellAt setCellPure
  by_cases hyy : y'.toNat = y.toNat
  · have hxx : x'.toNat ≠ x.toNat := by omega
    rw [hyy]
    rw [getD_set_self _ _ _ _ hj]
    rw [getD_set_ne _ _ _ _ _ hxx]
  · rw [getD_set_ne _ _ _ _ _ hyy]

/-- The block lies inside the grid bounds. -/
def blockInBounds (pf : Playfield) (b : Block) : Prop :=
  0 ≤ b.x_coord ∧ b.x_coord < (pf.grid_width : Int) ∧
    0 ≤ b.y_coord ∧ b.y_coord < (pf.grid_height : Int)

/-- The two blocks occupy different cells. -/
def distinctCells (a b : Block) : Prop :=
  a.x_coord ≠ b.x_coord ∨ a.y_coord ≠ b.y_coord

theorem forceWriteUnits_spec :
    ∀ (units : List Block) (pf : Playfield), pf.WFmatrix →
      (∀ b ∈ units, blockInBounds pf b) → units.Pairwise distinctCells →
      ∃ pf', forceWriteUnits pf units = .ok pf' ∧ pf'.WFmatrix ∧ sameScalars pf pf' ∧
        (∀ b ∈ units, cellAt pf' b.x_coord b.y_coord = some b) ∧
        (∀ x y : Int, 0 ≤ x → 0 ≤ y →
          (∀ b ∈ units, ¬ (x = b.x_coord ∧ y = b.y_coord)) →
          cellAt pf' x y = cellAt pf x y) := by
  intro units
  induction units with
  | nil =>
    intro pf hwf _ _
    exact ⟨pf, rfl, hwf, sameScalars_refl pf, by simp, fun x y _ _ _ => rfl⟩
  | cons b rest ih =>
    intro pf hwf hin hpw
    obtain ⟨hbx0, hbx1, hby0, hby1⟩ := hin b (List.mem_cons_self b rest)
    have hstep := set_cell_ok pf b.x_coord b.y_coord (some b) hwf hbx0 hbx1 hby0 hby1
    have hwf1 := WFmatrix_setCellPure pf b.x_coord b.y_coord (some b) hwf hby0 hby1
    obtain ⟨pf', hrun, hwf', hscal, hcells, hother⟩ :=
      ih (setCellPure pf b.x_coord b.y_coord (some b)) hwf1
        (fun b' hb' => hin b' (List.mem_cons_of_mem b hb'))
        (List.Pairwise.of_cons hpw)
    have hbne : ∀ b' ∈ rest, ¬ (b.x_coord = b'.x_coord ∧ b.y_coord = b'.y_coord) := by
      intro b' hb' hc
      rcases List.rel_of_pairwise_cons hpw hb' with hne | hne <;> exact hne (by omega)
    refine ⟨pf', ?_, hwf', sameScalars_trans
      (sameScalars_setCellPure pf b.x_coord b.y_coord (some b)) hscal, ?_, ?_⟩
    · unfold forceWriteUnits
      rw [hstep, except_bind_ok]
      exact hrun
    · intro b' hb'
      rcases List.mem_cons.mp hb' with rfl | hb'
      · rw [hother b'.x_coord b'.y_coord hbx0 hby0 hbne]
        exact cellAt_setCellPure_self pf b'.x_coord b'.y_coord (some b') hwf
          hbx0 hbx1 hby0 hby1
      · exact hcells b' hb'
    · intro x y hx0 hy0 hnone
      rw [hother x y hx0 hy0 (fun b' hb' => hnone b' (List.mem_cons_of_mem b hb'))]
      refine cellAt_setCellPure_ne pf b.x_coord b.y_coord x y (some b) hwf
        hbx0 hby0 hby1 hx0 hy0 ?_
      have := hnone b (List.mem_cons_self b rest)
      by_cases hxx : x = b.x_coord
      · right
        intro hyy
        exact this ⟨hxx, hyy⟩
      · left
        exact hxx

theorem addUnits_spec :
    ∀ (units : List Block) (pf : Playfield), pf.WFmatrix →
      (∀ b ∈ units, blockInBounds pf b) → units.Pairwise distinctCells →
      (∀ b ∈ units, cellAt pf b.x_coord b.y_coord = none) →
      ∃ pf', addUnits pf units = .ok pf' ∧ pf'.WFmatrix ∧ sameScalars pf pf' ∧
        (∀ b ∈ units, cellAt pf' b.x_coord b.y_coord = some b) ∧
        (∀ x y : Int, 0 ≤ x → 0 ≤ y →
          (∀ b ∈ units, ¬ (x = b.x_coord ∧ y = b.y_coord)) →
          cellAt pf' x y = cellAt pf x y) := by
  intro units
  induction units with
  | nil =>
    intro pf hwf _ _ _
    exact ⟨pf, rfl, hwf, sameScalars_refl pf, by simp, fun x y _ _ _ => rfl⟩
  | cons b rest ih =>
    intro pf hwf hin hpw hemp
    obtain ⟨hbx0, hbx1, hby0, hby1⟩ := hin b (List.mem_cons_self b rest)
    have hchk := check_cell_empty_inbounds pf b.x_coord b.y_coord hwf hbx0 hbx1 hby0 hby1
    rw [hemp b (List.mem_cons_self b rest)] at hchk
    have hstep := set_cell_ok pf b.x_coord b.y_coord (some b) hwf hbx0 hbx1 hby0 hby1
    have hwf1 := WFmatrix_setCellPure pf b.x_coord b.y_coord (some b) hwf hby0 hby1
    have hbne : ∀ b' ∈ rest, ¬ (b.x_coord = b'.x_coord ∧ b.y_coord = b'.y_coord) := by
      intro b' hb' hc
      rcases List.rel_of_pairwise_cons hpw hb' with hne | hne <;> exact hne (by omega)
    have hemp1 : ∀ b' ∈ rest,
        cellAt (setCellPure pf b.x_coord b.y_coord (some b)) b'.x_coord b'.y_coord = none := by
      intro b' hb'
      rw [cellAt_setCellPure_ne pf b.x_coord b.y_coord b'.x_coord b'.y_coord (some b) hwf
        hbx0 hby0 hby1 (hin b' (List.mem_cons_of_mem b hb')).1
        (hin b' (List.mem_cons_of_mem b hb')).2.2.1
        (by
          rcases List.rel_of_pairwise_cons hpw hb' with hne | hne
          · exact Or.inl (Ne.symm hne)
          · exact Or.inr (Ne.symm hne))]
      exact hemp b' (List.mem_cons_of_mem b hb')
    obtain ⟨pf', hrun, hwf', hscal, hcells, hother⟩ :=
      ih (setCellPure pf b.x_coord b.y_coord (some b)) hwf1
        (fun b' hb' => hin b' (List.mem_cons_of_mem b hb'))
        (List.Pairwise.of_cons hpw) hemp1
    refine ⟨pf', ?_, hwf', sameScalars_trans
      (sameScalars_setCellPure pf b.x_coord b.y_coord (some b)) hscal, ?_, ?_⟩
    · unfold addUnits Playfield.add_block
      rw [hchk, except_bind_ok]
      rw [if_neg (by simp)]
      rw [hstep, except_bind_ok]
      exact hrun
    · intro b' hb'
      rcases List.mem_cons.mp hb' with rfl | hb'
      · rw [hother b'.x_coord b'.y_coord hbx0 hby0 hbne]
        exact cellAt_setCellPure_self pf b'.x_coord b'.y_coord (some b') hwf
          hbx0 hbx1 hby0 hby1
      · exact hcells b' hb'
    · intro x y hx0 hy0 hnone
      rw [hother x y hx0 hy0 (fun b' hb' => hnone b' (List.mem_cons_of_mem b hb'))]
      refine cellAt_setCellPure_ne pf b.x_coord b.y_coord x y (some b) hwf
        hbx0 hby0 hby1 hx0 hy0 ?_
      have := hnone b (List.mem_cons_self b rest)
      by_cases hxx : x = b.x_coord
      · right
        intro hyy
        exact this ⟨hxx, hyy⟩
      · left
        exact hxx

/-- C4: when a piece set up at the spawn origin (3, 2) collides, it is
set up again exactly one row higher at (3, 1) — the result state holds
that retried piece.  If the retry also collides, the game-over flag is
set, the piece is deactivated, and all of the piece's cells are
force-written into the grid, overwriting whatever occupied them, with
cells outside the piece untouched.  If the retry does not collide, the
piece is added normally: the piece stays active, the game-over flag is
unchanged, its cells are written and every other cell is untouched. -/
theorem c4_spawn_collision_retry (pf : Playfield) (piece : Tetromino) (base : Nat)
    (t2 t1 : Tetromino) (hwf : pf.WFmatrix)
    (hs2 : piece.setup_blocks 3 2 base = .ok t2)
    (hs1 : piece.setup_blocks 3 1 base = .ok t1)
    (hcol2 : Tetromino.would_collide ⟨t2, { pf with tetromino_isactive := true }⟩ 0 0 =
      .ok true)
    (hin1 : ∀ b ∈ t1.square_units, blockInBounds pf b)
    (hdist1 : t1.square_units.Pairwise distinctCells) :
    ((Tetromino.would_collide ⟨t1, { pf with tetromino_isactive := true }⟩ 0 0 =
        .ok true) →
      ∃ pfG, pf.set_tetromino piece base = .ok ⟨t1, pfG⟩ ∧
        pfG.game_over = true ∧ pfG.tetromino_isactive = false ∧
        (∀ b ∈ t1.square_units, cellAt pfG b.x_coord b.y_coord = some b) ∧
        (∀ x y : Int, 0 ≤ x → 0 ≤ y →
          (∀ b ∈ t1.square_units, ¬ (x = b.x_coord ∧ y = b.y_coord)) →
          cellAt pfG x y = cellAt pf x y)) ∧
    ((Tetromino.would_collide ⟨t1, { pf with tetromino_isactive := true }⟩ 0 0 =
        .ok false) →
      (∀ b ∈ t1.square_units, cellAt pf b.x_coord b.y_coord = none) →
      ∃ pfN, pf.set_tetromino piece base = .ok ⟨t1, pfN⟩ ∧
        pfN.game_over = pf.game_over ∧ pfN.tetromino_isactive = true ∧
        (∀ b ∈ t1.square_units, cellAt pfN b.x_coord b.y_coord = some b) ∧
        (∀ x y : Int, 0 ≤ x → 0 ≤ y →
          (∀ b ∈ t1.square_units, ¬ (x = b.x_coord ∧ y = b.y_coord)) →
          cellAt pfN x y = cellAt pf x y)) := by
  constructor
  · intro hcol1
    obtain ⟨pf', hrun, hwf', hscal, hcells, hother⟩ :=
      forceWriteUnits_spec t1.square_units
        { pf with game_over := true, tetromino_isactive := false } hwf hin1 hdist1
    refine ⟨pf', ?_, ?_, ?_, hcells, hother⟩
    · unfold Playfield.set_tetromino
      dsimp only
      rw [hs2, except_bind_ok, hcol2, except_bind_ok]
      rw [if_pos rfl]
      rw [hs1, except_bind_ok, hcol1, except_bind_ok]
      rw [if_pos rfl]
      rw [hrun, except_bind_ok]
    · rw [hscal.2.2.2.2.2.2.1]
    · rw [hscal.2.2.2.1]
  · intro hcol1 hemp
    obtain ⟨pf', hrun, hwf', hscal, hcells, hother⟩ :=
      addUnits_spec t1.square_units { pf with tetromino_isactive := true }
        hwf hin1 hdist1 hemp
    refine ⟨pf', ?_, ?_, ?_, hcells, hother⟩
    · unfold Playfield.set_tetromino
      dsimp only
      rw [hs2, except_bind_ok, hcol2, except_bind_ok]
      rw [if_pos rfl]
      rw [hs1, except_bind_ok, hcol1, except_bind_ok]
      rw [if_neg (by simp)]
      rw [hrun, except_bind_ok]
    · rw [hscal.2.2.2.2.2.2.1]
    · rw [hscal.2.2.2.1]

instance (pf : Playfield) (b : Block) : Decidable (blockInBounds pf b) := by
  unfold blockInBounds
  infer_instance

instance : DecidableRel distinctCells := fun a b => by
  unfold distinctCells
  infer_instance

/-- A fresh O piece before setup (square_units still holding the
placeholder entries of the constructor). -/
def c4Piece : Tetromino :=
  ⟨0, 0, [⟨0, 0, 0⟩, ⟨0, 0, 0⟩, ⟨0, 0, 0⟩, ⟨0, 0, 0⟩],
    [[(1, 0), (1, 1), (2, 1), (2, 0)]], 0, true⟩

/-- The piece set up at the spawn origin (3, 2). -/
def c4T2 : Tetromino := (c4Piece.setup_blocks 3 2 11).toOption.getD c4Piece

/-- The piece set up one row higher at (3, 1). -/
def c4T1 : Tetromino := (c4Piece.setup_blocks 3 1 11).toOption.getD c4Piece

/-- A grid blocking both the spawn position and the retry position. -/
def c4FieldA : Playfield := mkPlayfield [⟨100, 4, 2⟩, ⟨101, 4, 1⟩]

/-- A grid blocking only the spawn position, not the retry. -/
def c4FieldB : Playfield := mkPlayfield [⟨100, 5, 3⟩]

/-- Witness for c4_spawn_collision_retry: on c4FieldA the retry still
collides and the game-over branch force-writes the piece; on c4FieldB
the retry is free and the piece is added normally. -/
theorem c4_spawn_collision_retry_witness :
    (∃ pfG, c4FieldA.set_tetromino c4Piece 11 = .ok ⟨c4T1, pfG⟩ ∧
      pfG.game_over = true ∧ pfG.tetromino_isactive = false ∧
      (∀ b ∈ c4T1.square_units, cellAt pfG b.x_coord b.y_coord = some b) ∧
      (∀ x y : Int, 0 ≤ x → 0 ≤ y →
        (∀ b ∈ c4T1.square_units, ¬ (x = b.x_coord ∧ y = b.y_coord)) →
        cellAt pfG x y = cellAt c4FieldA x y)) ∧
    (∃ pfN, c4FieldB.set_tetromino c4Piece 11 = .ok ⟨c4T1, pfN⟩ ∧
      pfN.game_over = c4FieldB.game_over ∧ pfN.tetromino_isactive = true ∧
      (∀ b ∈ c4T1.square_units, cellAt pfN b.x_coord b.y_coord = some b) ∧
      (∀ x y : Int, 0 ≤ x → 0 ≤ y →
        (∀ b ∈ c4T1.square_units, ¬ (x = b.x_coord ∧ y = b.y_coord)) →
        cellAt pfN x y = cellAt c4FieldB x y)) :=
  ⟨(c4_spawn_collision_retry c4FieldA c4Piece 11 c4T2 c4T1 (by decide) (by decide)
      (by decide) (by decide) (by decide) (by decide)).1 (by decide),
    (c4_spawn_collision_retry c4FieldB c4Piece 11 c4T2 c4T1 (by decide) (by decide)
      (by decide) (by decide) (by decide) (by decide)).2 (by decide) (by decide)⟩

/-- The row list of the grid at a given row index (total accessor used
to state properties of the row-shifting code). -/
def rowAt (pf : Playfield) (y : Int) : List Cell :=
  pf.matrix.getD y.toNat []

theorem cellAt_eq_rowAt (pf : Playfield) (x y : Int) :
    cellAt pf x y = (rowAt pf y).getD x.toNat none := rfl

theorem find?_append_some {α : Type} (p : α → Bool) :
    ∀ (l1 l2 : List α) (a : α), l1.find? p = some a → (l1 ++ l2).find? p = some a := by
  intro l1
  induction l1 with
  | nil => intro l2 a h; cases h
  | cons b t ih =>
    intro l2 a h
    by_cases hb : p b
    · rw [List.find?_cons_of_pos _ hb] at h
      rw [List.cons_append, List.find?_cons_of_pos _ hb]
      exact h
    · rw [List.find?_cons_of_neg _ hb] at h
      rw [List.cons_append, List.find?_cons_of_neg _ hb]
      exact ih l2 a h

theorem find?_append_none {α : Type} (p : α → Bool) :
    ∀ (l1 l2 : List α), l1.find? p = none → (l1 ++ l2).find? p = l2.find? p := by
  intro l1
  induction l1 with
  | nil => intro l2 _; rfl
  | cons b t ih =>
    intro l2 h
    by_cases hb : p b
    · rw [List.find?_cons_of_pos _ hb] at h
      cases h
    · rw [List.find?_cons_of_neg _ hb] at h
      rw [List.cons_append, List.find?_cons_of_neg _ hb]
      exact ih l2 h

theorem find?_range_eq_some (p : Nat → Bool) (n m : Nat) (hmn : m < n)
    (hp : p m = true) (hlt : ∀ k, k < m → p k = false) :
    (List.range n).find? p = some m := by
  have hnone : (List.range m).find? p = none := by
    rw [List.find?_eq_none]
    intro k hk
    rw [hlt k (List.mem_range.mp hk)]
    simp
  have hsplit : List.range n = List.range m ++ (List.range (n - m)).map (fun k => m + k) := by
    rw [← List.range_add]
    congr 1
    omega
  rw [hsplit, find?_append_none _ _ _ hnone]
  have hnm : n - m = (n - m - 1) + 1 := by omega
  rw [hnm, List.range_succ_eq_map, List.map_cons]
  rw [List.find?_cons_of_pos _ (by simpa using hp)]
  simp

theorem get_top_block_row_eq (pf : Playfield) (m : Nat) (hm : m < pf.grid_height - 1)
    (hne : pf.check_row_empty m = false)
    (hlt : ∀ k, k < m → pf.check_row_empty k = true) :
    pf.get_top_block_row = (m : Int) := by
  unfold Playfield.get_top_block_row
  rw [find?_range_eq_some _ _ m hm (by rw [hne]; rfl)
    (fun k hk => by rw [hlt k hk]; rfl)]

theorem check_row_empty_iff (pf : Playfield) (y : Int) (hwf : pf.WFmatrix)
    (hy0 : 0 ≤ y) (hy1 : y < (pf.grid_height : Int)) :
    pf.check_row_empty y.toNat = true ↔
      ∀ x : Int, 0 ≤ x → x < (pf.grid_width : Int) → cellAt pf x y = none := by
  obtain ⟨hlen, hrows⟩ := hwf
  have hj : y.toNat < pf.matrix.length := by omega
  have hrow : rowAt pf y = pf.matrix.get ⟨y.toNat, hj⟩ := getD_eq_get _ _ _ hj
  have hrlen : (rowAt pf y).length = pf.grid_width := by
    rw [hrow]
    exact hrows _ (pf.matrix.get_mem _ _)
  unfold Playfield.check_row_empty
  rw [List.all_eq_true]
  constructor
  · intro h x hx0 hx1
    have hi : x.toNat < (rowAt pf y).length := by omega
    have hcell : cellAt pf x y = (rowAt pf y).get ⟨x.toNat, hi⟩ := by
      rw [cellAt_eq_rowAt, getD_eq_get _ _ _ hi]
    rw [hcell]
    have := h _ ((rowAt pf y).get_mem x.toNat hi)
    exact Option.isNone_iff_eq_none.mp (by simpa using this)
  · intro h c hc
    rw [show (pf.matrix.getD y.toNat []) = rowAt pf y from rfl] at hc
    obtain ⟨⟨i, hi⟩, hget⟩ := List.mem_iff_get.mp hc
    have hcell : cellAt pf (i : Int) y = c := by
      rw [cellAt_eq_rowAt]
      rw [show ((i : Int)).toNat = i from rfl]
      rw [getD_eq_get _ _ _ hi]
      exact hget
    have := h (i : Int) (by omega) (by omega)
    rw [hcell] at this
    simp [this]

theorem check_grid_empty_iff (pf : Playfield) :
    pf.check_grid_empty = true ↔
      ∀ y : Nat, y < pf.grid_height → pf.check_row_empty y = true := by
  unfold Playfield.check_grid_empty
  rw [List.all_eq_true]
  constructor
  · intro h y hy
    exact h y (List.mem_range.mpr hy)
  · intro h y hy
    exact h y (List.mem_range.mp hy)

theorem sweepColumn_single (pf : Playfield) (x r : Int) (hwf : pf.WFmatrix)
    (hx0 : 0 ≤ x) (hx1 : x < (pf.grid_width : Int))
    (hr0 : 0 ≤ r) (hr1 : r < (pf.grid_height : Int)) :
    sweepColumn x [r] pf = .ok (setCellPure pf x r none) := by
  unfold sweepColumn
  rw [set_cell_ok pf x r none hwf hx0 hx1 hr0 hr1, except_bind_ok]
  rfl

theorem sweepColumns_spec (r : Int) :
    ∀ (xs : List Nat) (pf : Playfield), pf.WFmatrix →
      0 ≤ r → r < (pf.grid_height : Int) → (∀ x ∈ xs, x < pf.grid_width) →
      ∃ pf', sweepColumns [r] xs pf = .ok pf' ∧ pf'.WFmatrix ∧ sameScalars pf pf' ∧
        (∀ x : Int, 0 ≤ x → x.toNat ∈ xs → cellAt pf' x r = none) ∧
        (∀ x y : Int, 0 ≤ x → 0 ≤ y → (y ≠ r ∨ x.toNat ∉ xs) →
          cellAt pf' x y = cellAt pf x y) := by
  intro xs
  induction xs with
  | nil =>
    intro pf hwf _ _ _
    exact ⟨pf, rfl, hwf, sameScalars_refl pf, by simp, fun x y _ _ _ => rfl⟩
  | cons x0 rest ih =>
    intro pf hwf hr0 hr1 hxs
    have hx1 : ((x0 : Int)) < (pf.grid_width : Int) := by
      have := hxs x0 (List.mem_cons_self x0 rest)
      omega
    have hstep := sweepColumn_single pf (x0 : Int) r hwf (by omega) hx1 hr0 hr1
    have hwf1 := WFmatrix_setCellPure pf (x0 : Int) r none hwf hr0 hr1
    obtain ⟨pf', hrun, hwf', hscal, hclr, hother⟩ :=
      ih (setCellPure pf (x0 : Int) r none) hwf1 hr0 hr1
        (fun x hx => hxs x (List.mem_cons_of_mem x0 hx))
    refine ⟨pf', ?_, hwf', sameScalars_trans (sameScalars_setCellPure pf _ r none) hscal,
      ?_, ?_⟩
    · unfold sweepColumns
      rw [hstep, except_bind_ok]
      exact hrun
    · intro x hx0 hmem
      rcases List.mem_cons.mp hmem with hx0eq | hmem'
      · by_cases hrest : x.toNat ∈ rest
        · exact hclr x hx0 hrest
        · rw [hother x r hx0 hr0 (Or.inr hrest)]
          have hxx : x = (x0 : Int) := by omega
          rw [hxx]
          exact cellAt_setCellPure_self pf _ r none hwf (by omega) hx1 hr0 hr1
      · exact hclr x hx0 hmem'
    · intro x y hx0 hy0 hcond
      have hcond' : y ≠ r ∨ x.toNat ∉ rest := by
        rcases hcond with h | h
        · exact Or.inl h
        · exact Or.inr (fun hc => h (List.mem_cons_of_mem x0 hc))
      rw [hother x y hx0 hy0 hcond']
      refine cellAt_setCellPure_ne pf (x0 : Int) r x y none hwf (by omega) hr0 hr1
        hx0 hy0 ?_
      rcases hcond with h | h
      · exact Or.inr h
      · left
        intro hxx
        apply h
        have hxx' : x.toNat = x0 := by omega
        rw [hxx']
        exact List.mem_cons_self x0 rest

theorem line_clear_sweep_single (pf : Playfield) (r : Int) (hwf : pf.WFmatrix)
    (hr0 : 0 ≤ r) (hr1 : r < (pf.grid_height : Int)) :
    ∃ pf', pf.line_clear_sweep [r] = .ok pf' ∧ pf'.WFmatrix ∧ sameScalars pf pf' ∧
      (∀ x : Int, 0 ≤ x → x < (pf.grid_width : Int) → cellAt pf' x r = none) ∧
      (∀ x y : Int, 0 ≤ x → 0 ≤ y → y ≠ r → cellAt pf' x y = cellAt pf x y) := by
  obtain ⟨pf', hrun, hwf', hscal, hclr, hother⟩ :=
    sweepColumns_spec r (List.range pf.grid_width) pf hwf hr0 hr1
      (fun x hx => List.mem_range.mp hx)
  refine ⟨pf', hrun, hwf', hscal, ?_, ?_⟩
  · intro x hx0 hx1
    exact hclr x hx0 (List.mem_range.mpr (by omega))
  · intro x y hx0 hy0 hy
    exact hother x y hx0 hy0 (Or.inl hy)

/-- The pure effect of replacing one whole row of the grid. -/
def setRowPure (pf : Playfield) (y : Int) (row : List Cell) : Playfield :=
  { pf with matrix := pf.matrix.set y.toNat row }

theorem sameScalars_setRowPure (pf : Playfield) (y : Int) (row : List Cell) :
    sameScalars pf (setRowPure pf y row) :=
  ⟨rfl, rfl, rfl, rfl, rfl, rfl, rfl, rfl, rfl, rfl, rfl⟩

theorem rowAt_setRowPure_self (pf : Playfield) (y : Int) (row : List Cell)
    (hj : y.toNat < pf.matrix.length) :
    rowAt (setRowPure pf y row) y = row := by
  unfold rowAt setRowPure
  exact getD_set_self _ _ _ _ hj

theorem rowAt_setRowPure_ne (pf : Playfield) (y y' : Int) (row : List Cell)
    (hne : y'.toNat ≠ y.toNat) :
    rowAt (setRowPure pf y row) y' = rowAt pf y' := by
  unfold rowAt setRowPure
  exact getD_set_ne _ _ _ _ _ hne

theorem clear_row_ok (pf : Playfield) (r : Int)
    (hlen : pf.matrix.length = pf.grid_height)
    (hr0 : 0 ≤ r) (hr1 : r < (pf.grid_height : Int)) :
    pf.clear_row r = .ok (setRowPure pf r (List.replicate pf.grid_width none)) := by
  unfold Playfield.clear_row
  rw [pySet_nonneg hr0 (by omega), except_bind_ok]
  rfl

theorem pyRange_cons (a b : Int) (hab : a < b) :
    pyRange a b = a :: pyRange (a + 1) b := by
  unfold pyRange
  rw [if_pos hab]
  have hn : (b - a).toNat = ((b - (a + 1)).toNat) + 1 := by omega
  rw [hn, List.range_succ_eq_map, List.map_cons, List.map_map]
  by_cases hab1 : a + 1 < b
  · rw [if_pos hab1]
    congr 1
    · omega
    · apply List.map_congr_left
      intro k _
      simp only [Function.comp_def]
      omega
  · rw [if_neg hab1]
    have : (b - (a + 1)).toNat = 0 := by omega
    rw [this]
    simp

theorem shiftLoop_spec (b : Int) :
    ∀ (n : Nat) (a : Int) (pf : Playfield) (temp : List Cell),
      (b - a).toNat = n → 0 ≤ a → b < (pf.grid_height : Int) →
      pf.matrix.length = pf.grid_height →
      ∃ pf', shiftLoop (pyRange a b) pf temp = .ok pf' ∧
        sameScalars pf pf' ∧
        (∀ y : Int, a < y → y ≤ b →
          rowAt pf' y = (if y = a + 1 then temp else rowAt pf (y - 1))) ∧
        (∀ y : Int, 0 ≤ y → (y ≤ a ∨ b < y) → rowAt pf' y = rowAt pf y) := by
  intro n
  induction n with
  | zero =>
    intro a pf temp hn ha0 hb hlen
    have hab : ¬ a < b := by omega
    refine ⟨pf, ?_, sameScalars_refl pf, ?_, fun y _ _ => rfl⟩
    · unfold pyRange
      rw [if_neg hab]
      rfl
    · intro y hy1 hy2
      omega
  | succ n ih =>
    intro a pf temp hn ha0 hb hlen
    have hab : a < b := by omega
    rw [pyRange_cons a b hab]
    have ha1 : (0 : Int) ≤ a + 1 := by omega
    have ha1' : a + 1 < (pf.matrix.length : Int) := by omega
    obtain ⟨hj, hget⟩ := pyGet_nonneg_eq ha1 ha1'
    have hrowa1 : pf.matrix.get ⟨(a + 1).toNat, hj⟩ = rowAt pf (a + 1) :=
      (getD_eq_get _ _ _ hj).symm
    unfold shiftLoop
    rw [hget, except_bind_ok, pySet_nonneg ha1 ha1', except_bind_ok]
    obtain ⟨pf', hrun, hscal, hshift, hsame⟩ :=
      ih (a + 1) (setRowPure pf (a + 1) temp) (pf.matrix.get ⟨(a + 1).toNat, hj⟩)
        (by omega) ha1
        (by
          rw [show ((setRowPure pf (a + 1) temp).grid_height : Int) =
            (pf.grid_height : Int) from rfl]
          exact hb)
        (by
          rw [show (setRowPure pf (a + 1) temp).matrix =
            pf.matrix.set (a + 1).toNat temp from rfl]
          rw [List.length_set]
          exact hlen)
    refine ⟨pf', hrun, sameScalars_trans (sameScalars_setRowPure pf (a + 1) temp) hscal,
      ?_, ?_⟩
    · intro y hy1 hy2
      by_cases hya1 : y = a + 1
      · rw [if_pos hya1, hya1]
        rw [hsame (a + 1) ha1 (Or.inl (le_refl _))]
        exact rowAt_setRowPure_self pf (a + 1) temp (by omega)
      · rw [if_neg hya1]
        have hy1' : a + 1 < y := by omega
        rw [hshift y hy1' hy2]
        by_cases hya2 : y = a + 1 + 1
        · rw [if_pos hya2, hrowa1, hya2]
          congr 1
          omega
        · rw [if_neg hya2]
          exact rowAt_setRowPure_ne pf (a + 1) (y - 1) temp (by omega)
    · intro y hy0 hy
      have hy' : y ≤ a + 1 ∨ b < y := by omega
      rw [hsame y hy0 hy']
      rcases hy with hy | hy
      · exact rowAt_setRowPure_ne pf (a + 1) y temp (by omega)
      · exact rowAt_setRowPure_ne pf (a + 1) y temp (by omega)

theorem shiftOne_spec (pf : Playfield) (r m : Int)
    (hlen : pf.matrix.length = pf.grid_height)
    (hm0 : 0 ≤ m) (hmr : m < r) (hr1 : r < (pf.grid_height : Int))
    (hmne : pf.check_row_empty m.toNat = false)
    (hmlt : ∀ k : Nat, k < m.toNat → pf.check_row_empty k = true) :
    ∃ pf', pf.shiftOne r = .ok pf' ∧ sameScalars pf pf' ∧
      rowAt pf' m = List.replicate pf.grid_width none ∧
      (∀ y : Int, m < y → y ≤ r → rowAt pf' y = rowAt pf (y - 1)) ∧
      (∀ y : Int, 0 ≤ y → (y < m ∨ r < y) → rowAt pf' y = rowAt pf y) := by
  have htop : pf.get_top_block_row = m := by
    rw [get_top_block_row_eq pf m.toNat (by omega) hmne hmlt]
    omega
  have hm1 : m < (pf.matrix.length : Int) := by omega
  obtain ⟨hj, hget⟩ := pyGet_nonneg_eq hm0 hm1
  have hrowm : pf.matrix.get ⟨m.toNat, hj⟩ = rowAt pf m := (getD_eq_get _ _ _ hj).symm
  have hclr := clear_row_ok pf m hlen hm0 (by omega)
  obtain ⟨pf', hrun, hscal, hshift, hsame⟩ :=
    shiftLoop_spec r ((r - m).toNat) m
      (setRowPure pf m (List.replicate pf.grid_width none))
      (pf.matrix.get ⟨m.toNat, hj⟩) rfl hm0
      (by
        rw [show ((setRowPure pf m (List.replicate pf.grid_width none)).grid_height : Int)
          = (pf.grid_height : Int) from rfl]
        exact hr1)
      (by
        rw [show (setRowPure pf m (List.replicate pf.grid_width none)).matrix =
          pf.matrix.set m.toNat (List.replicate pf.grid_width none) from rfl]
        rw [List.length_set]
        exact hlen)
  refine ⟨pf', ?_, sameScalars_trans (sameScalars_setRowPure pf m _) hscal, ?_, ?_, ?_⟩
  · unfold Playfield.shiftOne
    dsimp only
    rw [htop, hget, except_bind_ok, hclr, except_bind_ok]
    exact hrun
  · rw [hsame m hm0 (Or.inl (le_refl m))]
    exact rowAt_setRowPure_self pf m _ (by omega)
  · intro y hy1 hy2
    rw [hshift y hy1 hy2]
    by_cases hym1 : y = m + 1
    · rw [if_pos hym1, hrowm, hym1]
      congr 1
      omega
    · rw [if_neg hym1]
      exact rowAt_setRowPure_ne pf m (y - 1) _ (by omega)
  · intro y hy0 hy
    have hy' : y ≤ m ∨ r < y := by omega
    rw [hsame y hy0 hy']
    exact rowAt_setRowPure_ne pf m y _ (by omega)

theorem dedup_fold_nodup (l : List Block) :
    ∀ acc : List Int, acc.Nodup →
      (l.foldl (fun rows b =>
        if b.y_coord ∈ rows then rows else rows ++ [b.y_coord]) acc).Nodup := by
  induction l with
  | nil => intro acc h; exact h
  | cons a t ih =>
    intro acc h
    rw [List.foldl_cons]
    by_cases hmem : a.y_coord ∈ acc
    · rw [if_pos hmem]
      exact ih acc h
    · rw [if_neg hmem]
      refine ih _ (List.nodup_append.mpr ⟨h, List.nodup_singleton _, ?_⟩)
      intro z hz hz1
      rw [List.mem_singleton.mp hz1] at hz
      exact hmem hz

theorem get_rows_nodup (t : Tetromino) : t.get_rows.Nodup := by
  unfold Tetromino.get_rows
  rw [List.Perm.nodup_iff (List.perm_insertionSort _ _)]
  exact dedup_fold_nodup t.square_units [] List.nodup_nil

theorem filter_eq_singleton (r : Int) :
    ∀ l : List Int, l.Nodup → r ∈ l → l.filter (fun x => decide (x = r)) = [r] := by
  intro l
  induction l with
  | nil => intro _ h; cases h
  | cons a rest ih =>
    intro hnd hr
    obtain ⟨hna, hndr⟩ := List.nodup_cons.mp hnd
    rcases List.mem_cons.mp hr with rfl | hr'
    · rw [List.filter_cons_of_pos (by simp)]
      rw [List.filter_eq_nil_iff.mpr]
      intro x hx
      simp only [decide_eq_true_eq]
      intro hxa
      rw [hxa] at hx
      exact hna hx
    · have hane : a ≠ r := fun hc => hna (hc ▸ hr')
      rw [List.filter_cons_of_neg (by simpa using hane)]
      exact ih hndr hr'

theorem getD_replicate_none (n i : Nat) :
    (List.replicate n (none : Cell)).getD i none = none := by
  rw [List.getD_eq_getElem?_getD, List.getElem?_replicate]
  by_cases h : i < n
  · rw [if_pos h]
    rfl
  · rw [if_neg h]
    rfl

theorem shift_rows_down_single (pf : Playfield) (r : Int) :
    pf.shift_rows_down [r] =
      if pf.check_grid_empty then .ok pf else pf.shiftOne r := by
  unfold Playfield.shift_rows_down
  by_cases h : pf.check_grid_empty
  · rw [if_pos h, if_pos h]
  · rw [if_neg h, if_neg h]
    rw [List.foldlM_cons]
    cases hres : pf.shiftOne r with
    | error e => rw [except_bind_err]
    | ok pf1 =>
      rw [except_bind_ok, List.foldlM_nil]
      rfl

theorem c1_lock_enters_clear (st : GameState) (r : Int)
    (hfull : st.playfield.check_row_full r = .ok true)
    (htouch : r ∈ st.piece.get_rows)
    (honly : ∀ r' ∈ st.piece.get_rows, r' ≠ r → st.playfield.check_row_full r' = .ok false)
    (hvis : ∃ b ∈ st.piece.square_units, (st.playfield.hidden_rows : Int) ≤ b.y_coord) :
    Playfield.lock_tetromino st = .ok { lockReset st.playfield with
      in_clear_phase := true, clear_rows := some [r] } := by
  obtain ⟨b, hb, hbvis⟩ := hvis
  have hfalse : st.playfield.check_lock_out st.piece = false := by
    cases hlo : st.playfield.check_lock_out st.piece
    · rfl
    · have := (check_lock_out_iff _ _).mp hlo b hb
      omega
  have hfalse' : (lockReset st.playfield).check_lock_out st.piece = false := hfalse
  have hall : ∀ r' ∈ st.piece.get_rows,
      (lockReset st.playfield).check_row_full r' = .ok (decide (r' = r)) := by
    intro r' hr'
    by_cases h : r' = r
    · rw [decide_eq_true h]
      rw [h]
      exact hfull
    · rw [decide_eq_false h]
      exact honly r' hr' h
  unfold Playfield.lock_tetromino
  rw [hfalse']
  rw [if_neg (by simp)]
  rw [pattern_phase_of_rows (lockReset st.playfield) st.piece _ hall]
  rw [filter_eq_singleton r st.piece.get_rows (get_rows_nodup st.piece) htouch]
  rw [if_pos (by simp)]

/-- The final bookkeeping of the clear generator after sweep and shift:
leave the clear phase, report the cleared lines, and outside soft drop
ask for a gravity recalculation. -/
def clearRunFinish (pf : Playfield) (n : Nat) : Playfield :=
  if pf.soft_drop_isactive then
    { pf with in_clear_phase := false, events := pf.events ++ [ModelEvent.increaseLines n] }
  else
    { pf with in_clear_phase := false, events := (pf.events ++ [ModelEvent.increaseLines n]) ++ [ModelEvent.recalcGravity] }

theorem clearRunFinish_fields (pf : Playfield) (n : Nat) :
    (clearRunFinish pf n).game_over = pf.game_over ∧
      (clearRunFinish pf n).tetromino_isactive = pf.tetromino_isactive ∧
      (clearRunFinish pf n).in_clear_phase = false ∧
      (clearRunFinish pf n).matrix = pf.matrix ∧
      (clearRunFinish pf n).events = pf.events ++ [ModelEvent.increaseLines n] ++
        (if pf.soft_drop_isactive then [] else [ModelEvent.recalcGravity]) := by
  unfold clearRunFinish
  by_cases h : pf.soft_drop_isactive
  · rw [if_pos h, if_pos h]
    exact ⟨rfl, rfl, rfl, rfl, by simp⟩
  · rw [if_neg h, if_neg h]
    exact ⟨rfl, rfl, rfl, rfl, by simp⟩

theorem cellAt_congr_matrix (pf pf' : Playfield) (h : pf'.matrix = pf.matrix)
    (x y : Int) : cellAt pf' x y = cellAt pf x y := by
  unfold cellAt
  rw [h]

theorem line_clear_run_single (pf1 pfS pfT : Playfield) (r : Int)
    (hsweep : pf1.line_clear_sweep [r] = .ok pfS)
    (hshift : pfS.shift_rows_down [r] = .ok pfT) :
    pf1.line_clear_run [r] = .ok (clearRunFinish pfT 1) := by
  unfold Playfield.line_clear_run
  dsimp only
  rw [hsweep, except_bind_ok, hshift, except_bind_ok]
  unfold clearRunFinish
  cases hsd : pfT.soft_drop_isactive
  · rw [if_pos (by simp)]
    rw [if_neg (by simp)]
    rfl
  · rw [if_neg (by simp)]
    rw [if_pos (by simp)]
    rfl

/-- C1 (amended): take a state about to lock in which row r is full,
the locking piece touches row r and no other row it touches is full,
the piece is not locked out, and either some row above r still holds a
block or every row other than r is empty.  Then locking enters the
clear phase with pending rows [r]; running the clear generator to
completion succeeds and afterwards every row 1..r holds what the row
above it held before (so the cleared row's content is gone and the
rows above shift down by one — row r itself ends empty only when row
r-1 was), row 0 is empty, rows below r are unchanged, the clear phase
is off, and the model collaborator receives increase_lines(1) followed,
outside soft drop, by a gravity recalculation. -/
theorem c1_lock_and_clear_single_row (st : GameState) (r : Int)
    (hwf : st.playfield.WFmatrix)
    (hr0 : 0 ≤ r) (hr1 : r < (st.playfield.grid_height : Int))
    (hfull : st.playfield.check_row_full r = .ok true)
    (htouch : r ∈ st.piece.get_rows)
    (honly : ∀ r' ∈ st.piece.get_rows, r' ≠ r → st.playfield.check_row_full r' = .ok false)
    (hvis : ∃ b ∈ st.piece.square_units, (st.playfield.hidden_rows : Int) ≤ b.y_coord)
    (hguard : (∃ y : Int, 0 ≤ y ∧ y < r ∧ st.playfield.check_row_empty y.toNat = false) ∨
      (∀ y : Int, 0 ≤ y → y < (st.playfield.grid_height : Int) → y ≠ r →
        st.playfield.check_row_empty y.toNat = true)) :
    ∃ pf1 pf2,
      Playfield.lock_tetromino st = .ok pf1 ∧
      pf1.in_clear_phase = true ∧ pf1.clear_rows = some [r] ∧
      pf1.line_clear_run [r] = .ok pf2 ∧
      pf2.in_clear_phase = false ∧
      (∀ x y : Int, 0 ≤ x → x < (st.playfield.grid_width : Int) → 1 ≤ y → y ≤ r →
        cellAt pf2 x y = cellAt st.playfield x (y - 1)) ∧
      (∀ x : Int, 0 ≤ x → x < (st.playfield.grid_width : Int) → cellAt pf2 x 0 = none) ∧
      (∀ x y : Int, 0 ≤ x → 0 ≤ y → r < y →
        cellAt pf2 x y = cellAt st.playfield x y) ∧
      pf2.events = st.playfield.events ++ [ModelEvent.increaseLines 1] ++
        (if st.playfield.soft_drop_isactive then [] else [ModelEvent.recalcGravity]) ∧
      pf2.game_over = st.playfield.game_over ∧ pf2.tetromino_isactive = false := by
  have hlock := c1_lock_enters_clear st r hfull htouch honly hvis
  set pfL : Playfield := { lockReset st.playfield with
    in_clear_phase := true, clear_rows := some [r] } with hpfL
  have hwfL : pfL.WFmatrix := hwf
  have hr1L : r < (pfL.grid_height : Int) := hr1
  obtain ⟨pfS, hsweep, hwfS, hscalS, hclr, hkeep⟩ :=
    line_clear_sweep_single pfL r hwfL hr0 hr1L
  have hwS : pfS.grid_width = st.playfield.grid_width := hscalS.1
  have hhS : pfS.grid_height = st.playfield.grid_height := hscalS.2.1
  have hsoftS : pfS.soft_drop_isactive = st.playfield.soft_drop_isactive :=
    hscalS.2.2.2.2.2.2.2.2.1
  have heventsS : pfS.events = st.playfield.events := hscalS.2.2.2.2.2.2.2.2.2.2
  have hgoS : pfS.game_over = st.playfield.game_over := hscalS.2.2.2.2.2.2.1
  have hactS : pfS.tetromino_isactive = false := hscalS.2.2.2.1
  have hclr' : ∀ x : Int, 0 ≤ x → x < (st.playfield.grid_width : Int) →
      cellAt pfS x r = none := fun x hx0 hx1 => hclr x hx0 hx1
  have hkeep' : ∀ x y : Int, 0 ≤ x → 0 ≤ y → y ≠ r →
      cellAt pfS x y = cellAt st.playfield x y := fun x y hx hy hne => hkeep x y hx hy hne
  have hrow_to_st : ∀ y : Int, 0 ≤ y → y < (st.playfield.grid_height : Int) → y ≠ r →
      (pfS.check_row_empty y.toNat = true ↔
        st.playfield.check_row_empty y.toNat = true) := by
    intro y hy0 hy1 hne
    rw [check_row_empty_iff pfS y hwfS hy0 (by omega),
      check_row_empty_iff st.playfield y hwf hy0 hy1]
    constructor
    · intro h x hx0 hx1
      rw [← hkeep' x y hx0 hy0 hne]
      exact h x hx0 (by omega)
    · intro h x hx0 hx1
      rw [hkeep' x y hx0 hy0 hne]
      exact h x hx0 (by omega)
  have hrowr : pfS.check_row_empty r.toNat = true :=
    (check_row_empty_iff pfS r hwfS hr0 (by omega)).mpr
      (fun x hx0 hx1 => hclr' x hx0 (by omega))
  have hemptyS : ∀ y : Int, 0 ≤ y → y < (st.playfield.grid_height : Int) →
      pfS.check_row_empty y.toNat = true →
      ∀ x : Int, 0 ≤ x → x < (st.playfield.grid_width : Int) → cellAt pfS x y = none := by
    intro y hy0 hy1 hemp x hx0 hx1
    exact (check_row_empty_iff pfS y hwfS hy0 (by omega)).mp hemp x hx0 (by omega)
  by_cases hge : pfS.check_grid_empty = true
  · -- the grid is completely empty after the sweep
    have hshift : pfS.shift_rows_down [r] = .ok pfS := by
      rw [shift_rows_down_single, if_pos hge]
    have hall := (check_grid_empty_iff pfS).mp hge
    obtain ⟨hfgo, hfact, hfclear, hfmat, hfev⟩ := clearRunFinish_fields pfS 1
    have hcell2 : ∀ x y : Int, cellAt (clearRunFinish pfS 1) x y = cellAt pfS x y :=
      cellAt_congr_matrix pfS _ hfmat
    have hempty_any : ∀ y : Int, 0 ≤ y → y < (st.playfield.grid_height : Int) →
        ∀ x : Int, 0 ≤ x → x < (st.playfield.grid_width : Int) →
        cellAt pfS x y = none := by
      intro y hy0 hy1 x hx0 hx1
      exact hemptyS y hy0 hy1 (hall y.toNat (by omega)) x hx0 hx1
    refine ⟨pfL, clearRunFinish pfS 1, hlock, rfl, rfl,
      line_clear_run_single pfL pfS pfS r hsweep hshift, hfclear, ?_, ?_, ?_, ?_, ?_, ?_⟩
    · intro x y hx0 hx1 hy1 hy2
      rw [hcell2, hempty_any y (by omega) (by omega) x hx0 hx1,
        ← hkeep' x (y - 1) hx0 (by omega) (by omega),
        hempty_any (y - 1) (by omega) (by omega) x hx0 hx1]
    · intro x hx0 hx1
      rw [hcell2]
      exact hempty_any 0 (by omega) (by omega) x hx0 hx1
    · intro x y hx0 hy0 hry
      rw [hcell2]
      exact hkeep' x y hx0 hy0 (by omega)
    · rw [hfev, heventsS, hsoftS]
    · rw [hfgo, hgoS]
    · rw [hfact, hactS]
  · -- some row above r still holds a block
    obtain ⟨y0, hy00, hy0r, hy0ne⟩ :
        ∃ y : Int, 0 ≤ y ∧ y < r ∧ st.playfield.check_row_empty y.toNat = false := by
      rcases hguard with h | hall
      · exact h
      · exfalso
        apply hge
        apply (check_grid_empty_iff pfS).mpr
        intro k hk
        by_cases hkr : (k : Int) = r
        · rw [show k = r.toNat by omega]
          exact hrowr
        · refine (hrow_to_st (k : Int) (by omega) (by omega) hkr).mpr ?_
          have := hall (k : Int) (by omega) (by omega) hkr
          simpa using this
    have hy0S : pfS.check_row_empty y0.toNat = false := by
      cases hc : pfS.check_row_empty y0.toNat
      · rfl
      · exact absurd ((hrow_to_st y0 hy00 (by omega) (by omega)).mp hc) (by
          rw [hy0ne]
          simp)
    have hex : ∃ k : Nat, pfS.check_row_empty k = false := ⟨y0.toNat, hy0S⟩
    have hmspec := Nat.find_spec hex
    have hmle : Nat.find hex ≤ y0.toNat := Nat.find_min' hex hy0S
    have hmlt : ∀ k : Nat, k < ((Nat.find hex : Int)).toNat →
        pfS.check_row_empty k = true := by
      intro k hk
      cases hc : pfS.check_row_empty k
      · exact absurd hc (Nat.find_min hex (by omega))
      · rfl
    obtain ⟨pfT, hsrun, hscalT, hrowm, hsh, hsame⟩ :=
      shiftOne_spec pfS r (Nat.find hex : Int) hwfS.1 (by omega) (by omega) (by omega)
        (by simpa using hmspec) hmlt
    have hshift : pfS.shift_rows_down [r] = .ok pfT := by
      rw [shift_rows_down_single, if_neg hge]
      exact hsrun
    obtain ⟨hfgo, hfact, hfclear, hfmat, hfev⟩ := clearRunFinish_fields pfT 1
    have hcell2 : ∀ x y : Int, cellAt (clearRunFinish pfT 1) x y = cellAt pfT x y :=
      cellAt_congr_matrix pfT _ hfmat
    have hsoftT : pfT.soft_drop_isactive = st.playfield.soft_drop_isactive :=
      (hscalT.2.2.2.2.2.2.2.2.1).trans hsoftS
    have heventsT : pfT.events = st.playfield.events :=
      (hscalT.2.2.2.2.2.2.2.2.2.2).trans heventsS
    have hgoT : pfT.game_over = st.playfield.game_over :=
      (hscalT.2.2.2.2.2.2.1).trans hgoS
    have hactT : pfT.tetromino_isactive = false := (hscalT.2.2.2.1).trans hactS
    have hmr : ((Nat.find hex : Int)) < r := by omega
    refine ⟨pfL, clearRunFinish pfT 1, hlock, rfl, rfl,
      line_clear_run_single pfL pfS pfT r hsweep hshift, hfclear, ?_, ?_, ?_, ?_, ?_, ?_⟩
    · intro x y hx0 hx1 hy1 hy2
      rw [hcell2]
      rcases lt_trichotomy ((Nat.find hex : Int)) y with hmy | hmy | hmy
      · rw [cellAt_eq_rowAt, hsh y hmy hy2, ← cellAt_eq_rowAt]
        rw [hkeep' x (y - 1) hx0 (by omega) (by omega)]
      · have hrow : rowAt pfT y = List.replicate pfS.grid_width none := by
          rw [← hmy]
          exact hrowm
        rw [cellAt_eq_rowAt, hrow, getD_replicate_none,
          ← hkeep' x (y - 1) hx0 (by omega) (by omega),
          hemptyS (y - 1) (by omega) (by omega) (hmlt (y - 1).toNat (by omega)) x hx0 hx1]
      · rw [cellAt_eq_rowAt, hsame y (by omega) (Or.inl hmy), ← cellAt_eq_rowAt]
        rw [hemptyS y (by omega) (by omega) (hmlt y.toNat (by omega)) x hx0 hx1]
        rw [← hkeep' x (y - 1) hx0 (by omega) (by omega)]
        rw [hemptyS (y - 1) (by omega) (by omega) (hmlt (y - 1).toNat (by omega)) x hx0 hx1]
    · intro x hx0 hx1
      rw [hcell2]
      by_cases hm0 : (Nat.find hex : Int) = 0
      · rw [cellAt_eq_rowAt, ← hm0, hrowm, getD_replicate_none]
      · rw [cellAt_eq_rowAt, hsame 0 (by omega) (Or.inl (by omega)), ← cellAt_eq_rowAt]
        exact hemptyS 0 (by omega) (by omega) (hmlt 0 (by omega)) x hx0 hx1
    · intro x y hx0 hy0 hry
      rw [hcell2]
      rw [cellAt_eq_rowAt, hsame y hy0 (Or.inr hry), ← cellAt_eq_rowAt]
      exact hkeep' x y hx0 hy0 (by omega)
    · rw [hfev, heventsT, hsoftT]
    · rw [hfgo, hgoT]
    · rw [hfact, hactT]

/-- The four blocks of a concrete S-shaped piece: one block completes
the bottom row (row 21), three sit in the row above (row 20). -/
def c1CexUnits : List Block :=
  [⟨1, 0, 21⟩, ⟨2, 0, 20⟩, ⟨3, 1, 20⟩, ⟨4, 2, 20⟩]

/-- All blocks on the grid: the piece's four, plus nine older blocks
filling row 21 except the cell at x = 0 — so row 21 is the single row
fully occupied except one cell, and the piece fills that cell. -/
def c1CexBlocks : List Block :=
  c1CexUnits ++ [⟨11, 1, 21⟩, ⟨12, 2, 21⟩, ⟨13, 3, 21⟩, ⟨14, 4, 21⟩,
    ⟨15, 5, 21⟩, ⟨16, 6, 21⟩, ⟨17, 7, 21⟩, ⟨18, 8, 21⟩, ⟨19, 9, 21⟩]

/-- The state about to lock: the piece's blocks are already written in
the 10 by 22 grid, as they are whenever a piece moves. -/
def c1CexState : GameState :=
  ⟨⟨0, 19, c1CexUnits, [[(0, 1), (0, 2), (1, 2), (2, 2)]], 0, false⟩,
    mkPlayfield c1CexBlocks⟩

/-- The playfield after locking the piece. -/
def c1CexLocked : Playfield :=
  (Playfield.lock_tetromino c1CexState).toOption.getD c1CexState.playfield

/-- The playfield after the line-clear generator runs to completion on
the pending row list. -/
def c1CexAfter : Playfield :=
  (c1CexLocked.line_clear_run [21]).toOption.getD c1CexLocked

/-- C1 counterexample: a grid in which exactly one row (row 21) is
fully occupied except one cell, and the locking piece fills that cell.
Locking enters the clear phase with pending rows [21] and the clear
generator completes, but the cleared row is NOT empty afterwards: the
shift moved the content of row 20 (three of the piece's own blocks)
down into row 21. -/
theorem c1_cleared_row_not_empty_counterexample :
    Playfield.lock_tetromino c1CexState = .ok c1CexLocked ∧
      c1CexLocked.in_clear_phase = true ∧
      c1CexLocked.clear_rows = some [21] ∧
      c1CexLocked.line_clear_run [21] = .ok c1CexAfter ∧
      c1CexAfter.check_row_empty 21 = false :=
  ⟨by decide, by decide, by decide, by decide, by decide⟩

/-- Witness for c1_lock_and_clear_single_row: the concrete single-gap
scenario satisfies every hypothesis (row 21 is full once the piece
locks, only row 21 among the piece's rows is full, the piece reaches
the visible rows, and row 20 above the cleared row is not empty), so
the amended description of the lock-and-clear sequence holds there. -/
theorem c1_lock_and_clear_single_row_witness :
    c1CexState.playfield.check_row_full 21 = .ok true ∧
      (∃ pf1 pf2,
        Playfield.lock_tetromino c1CexState = .ok pf1 ∧
        pf1.in_clear_phase = true ∧ pf1.clear_rows = some [21] ∧
        pf1.line_clear_run [21] = .ok pf2 ∧
        pf2.in_clear_phase = false ∧
        (∀ x y : Int, 0 ≤ x → x < (c1CexState.playfield.grid_width : Int) →
          1 ≤ y → y ≤ 21 → cellAt pf2 x y = cellAt c1CexState.playfield x (y - 1)) ∧
        (∀ x : Int, 0 ≤ x → x < (c1CexState.playfield.grid_width : Int) →
          cellAt pf2 x 0 = none) ∧
        (∀ x y : Int, 0 ≤ x → 0 ≤ y → 21 < y →
          cellAt pf2 x y = cellAt c1CexState.playfield x y) ∧
        pf2.events = c1CexState.playfield.events ++ [ModelEvent.increaseLines 1] ++
          (if c1CexState.playfield.soft_drop_isactive then []
            else [ModelEvent.recalcGravity]) ∧
        pf2.game_over = c1CexState.playfield.game_over ∧
        pf2.tetromino_isactive = false) :=
  ⟨by decide,
    c1_lock_and_clear_single_row c1CexState 21 (by decide) (by decide) (by decide)
      (by decide) (by decide) (by decide) ⟨⟨4, 2, 20⟩, by decide, by decide⟩
      (Or.inl ⟨20, by decide, by decide, by decide⟩)⟩
